import Mathlib

/-! pxlib: the physical-storage access layer (`src/px_io.c`).

A shallow embedding of the stream factory (`px_stream_new`,
`px_stream_new_file`, `px_stream_new_gsf`), the file transport (`px_fread`,
`px_fseek`, `px_ftell`, `px_fwrite`), the structured-storage transport
(`px_gsfread`, `px_gsfseek`, `px_gsftell`, `px_gsfwrite`), the main block cache
(`px_read`, `px_seek`, `px_tell`, `px_write`, `px_flush`) and the blob codec
(`px_mb_read`, `px_mb_seek`, `px_mb_tell`, `px_mb_write`).

Conventions of the embedding.

* A byte is a `Fin 256`; a C buffer is a `List Byte`; a pointer that may be
  `NULL` is an `Option`.
* `long` values are `Int`; their arithmetic is not wrapped (signed overflow is
  undefined in C).  `size_t` values are `Nat`.  Where the source mixes `long`
  and `size_t` in one expression the operands are converted to
  `unsigned long` and the result is reduced modulo `2^64` (`toULong`,
  `ulong_add`), and a value passed back to a `long` parameter is converted
  with `toLong`.
* The diagnostic `fprintf(stderr, ...)` lines have no effect on the state and
  are left out.
* `px_error` appends to a list held by the document.
* `p->malloc` is a field of the document: a function from the requested size
  to `none` (allocation failure) or a buffer with unspecified contents.
* The encryption collaborator (`px_crypt.h`) is a parameter: `cr` for the
  main data blocks, `mcr` for the blob pages.
* `int` values are `Int`; a `size_t` stored in an `int` is converted with
  `toInt32`, and `unsigned int` values are reduced modulo `2^32`.
* `px_mb_read` contains assertions; its result is `none` when one of them
  fails, since the call then does not return.
* The transport is the record of four bindings held by the stream; the file
  transport binds them to a model of the C library calls on a file held in
  memory, which also logs the calls it receives.
* `memcpy`, `memset` and the C library calls are exact for ranges inside the
  buffers involved.  Outside them, and when a `NULL` cache buffer is read
  (taken as the empty buffer), C leaves the behaviour undefined and the
  embedding copies the bytes that exist.
-/

namespace Pxlib

/-- One byte of a buffer or of a file. -/
abbrev Byte := Fin 256

/-! ## Machine integers -/

/-- Conversion of a `long` to `unsigned long` (64 bit): reduction modulo `2^64`. -/
def toULong (x : Int) : Nat := (x % (2 ^ 64 : Int)).toNat

/-- Conversion of an `unsigned long` to `long` (two's complement). -/
def toLong (n : Nat) : Int :=
  if n % 2 ^ 64 < 2 ^ 63 then ((n % 2 ^ 64 : Nat) : Int) else ((n % 2 ^ 64 : Nat) : Int) - 2 ^ 64

/-- Addition of a `long` and a `size_t`: the `long` is converted to
`unsigned long` and the sum is taken modulo `2^64`. -/
def ulong_add (x : Int) (len : Nat) : Nat := (toULong x + len) % 2 ^ 64

/-! ## Buffers -/

/-- The C call `memcpy(dst + dstoff, src + srcoff, len)`, for ranges inside both buffers. -/
def memcpy (dst : List Byte) (dstoff : Nat) (src : List Byte) (srcoff : Nat) (len : Nat) :
    List Byte :=
  dst.take dstoff ++ ((src.drop srcoff).take len ++ dst.drop (dstoff + len))

/-- The C call `memset(dst, c, n)`, for `n` inside the buffer. -/
def memset (dst : List Byte) (c : Byte) (n : Nat) : List Byte :=
  List.replicate n c ++ dst.drop n

/-! ## The C library's stream, in memory -/

/-- The third argument of `fseek`. -/
inductive Whence where
  | SEEK_SET
  | SEEK_CUR
  | SEEK_END
  deriving DecidableEq, Repr

/-- A call received by a file, for counting physical operations. -/
inductive FileOp where
  | seek (offset : Int) (whence : Whence)
  | read (len : Nat)
  | write (len : Nat)
  deriving DecidableEq, Repr

/-- A `FILE` of the C library held in memory: its bytes, its position, and
the calls it has received so far, oldest first (`ftell` is not recorded). -/
structure FILE where
  data : List Byte
  pos : Nat
  ops : List FileOp
  deriving DecidableEq, Repr

/-- The C library's `fseek`: a negative resulting position fails with `-1`
and leaves the position alone; a position past the end is allowed. -/
def fseek (fp : FILE) (offset : Int) (whence : Whence) : FILE × Int :=
  let base : Int :=
    match whence with
    | Whence.SEEK_SET => 0
    | Whence.SEEK_CUR => (fp.pos : Int)
    | Whence.SEEK_END => (fp.data.length : Int)
  let fp1 := { fp with ops := fp.ops ++ [FileOp.seek offset whence] }
  if base + offset < 0 then (fp1, -1)
  else ({ fp1 with pos := (base + offset).toNat }, 0)

/-- The C library's `ftell`. -/
def ftell (fp : FILE) : Int := (fp.pos : Int)

/-- The bytes of a file after `src` is stored at `pos`: a gap between the
old end of the file and `pos` reads as zero, and the bytes after the stored
range stay. -/
def store (data : List Byte) (pos : Nat) (src : List Byte) : List Byte :=
  let old := data ++ List.replicate (pos - data.length) 0
  old.take pos ++ (src ++ old.drop (pos + src.length))

/-- The `n` bytes of a file at `pos`, fewer at the end of the file. -/
def window (data : List Byte) (pos n : Nat) : List Byte := (data.drop pos).take n

/-- The C library's `fread(ptr, size, nmemb, fp)`: copies the bytes that are
available, up to `size * nmemb`, to the front of `ptr`, advances the position
by that many, and returns the number of complete items. -/
def fread (ptr : List Byte) (size nmemb : Nat) (fp : FILE) : FILE × Nat × List Byte :=
  let got := window fp.data fp.pos (size * nmemb)
  ({ fp with pos := fp.pos + got.length, ops := fp.ops ++ [FileOp.read (size * nmemb)] },
   got.length / size,
   got ++ ptr.drop got.length)

/-- The C library's `fwrite(ptr, size, nmemb, fp)`: stores the first
`size * nmemb` bytes of `ptr` at the position, advances the position, and
returns the number of complete items. -/
def fwrite (ptr : List Byte) (size nmemb : Nat) (fp : FILE) : FILE × Nat :=
  let src := ptr.take (size * nmemb)
  ({ data := store fp.data fp.pos src,
     pos := fp.pos + src.length,
     ops := fp.ops ++ [FileOp.write (size * nmemb)] },
   src.length / size)

/-! ## Streams and documents -/

/-- The transport kind of a stream (`pxs->type`). -/
inductive pxfIOKind where
  | pxfIOFile
  | pxfIOGsf
  | pxfIOStream
  deriving DecidableEq, Repr

/-- The stream record `pxstream_t`: kind, mode, close flag, the transport
handle `s`, and the four operation bindings, which act on the handle. -/
structure pxstream_t (σ : Type) where
  type : pxfIOKind
  mode : Int
  close : Int
  s : σ
  read : σ → Nat → List Byte → σ × Nat × List Byte
  seek : σ → Int → Whence → σ × Int
  tell : σ → Int
  write : σ → Nat → List Byte → σ × Nat

/-- The header fields this layer consumes (`pxhead_t`). -/
structure pxhead_t where
  px_headersize : Int
  px_maxtablesize : Int
  px_encryption : Nat
  deriving DecidableEq, Repr

/-- The error kinds passed to `px_error`. -/
inductive pxErrorKind where
  | PX_MemoryError
  | PX_RuntimeError
  deriving DecidableEq, Repr

/-- The document record `pxdoc_t`, restricted to what `px_io.c` touches. -/
structure pxdoc_t (σ : Type) where
  px_head : Option pxhead_t
  px_stream : pxstream_t σ
  curblock : Option (List Byte)
  curblocknr : Int
  curblockdirty : Bool
  malloc : Nat → Option (List Byte)
  errors : List (pxErrorKind × String)

/-- The encryption collaborator of the main data blocks (`px_crypt.h`):
source buffer, key, size and block number give the destination buffer. -/
structure px_crypt where
  px_encrypt_db_block : List Byte → Nat → Int → Int → List Byte
  px_decrypt_db_block : List Byte → Nat → Int → Int → List Byte

/-- The call `px_error(p, kind, msg)`: one report to the error collaborator. -/
def px_error {σ : Type} (p : pxdoc_t σ) (kind : pxErrorKind) (msg : String) : pxdoc_t σ :=
  { p with errors := p.errors ++ [(kind, msg)] }

/-- Replaces the transport handle of the document's stream. -/
def set_s {σ : Type} (p : pxdoc_t σ) (s : σ) : pxdoc_t σ :=
  { p with px_stream := { p.px_stream with s := s } }

/-! ## The file transport -/

/-- Source: `px_fread`. -/
def px_fread (stream : FILE) (len : Nat) (buffer : List Byte) : FILE × Nat × List Byte :=
  fread buffer len 1 stream

/-- Source: `px_fseek`. -/
def px_fseek (stream : FILE) (offset : Int) (whence : Whence) : FILE × Int :=
  fseek stream offset whence

/-- Source: `px_ftell`. -/
def px_ftell (stream : FILE) : Int := ftell stream

/-- Source: `px_fwrite`. -/
def px_fwrite (stream : FILE) (len : Nat) (buffer : List Byte) : FILE × Nat :=
  fwrite buffer len 1 stream

/-! ## The main block cache -/

/-- Source: `px_read`.  Returns the return value, the caller's buffer and the document. -/
def px_read {σ : Type} (cr : px_crypt) (p : pxdoc_t σ) (len : Nat) (buffer : List Byte) :
    Nat × List Byte × pxdoc_t σ :=
  let pxs := p.px_stream
  let curpos := pxs.tell pxs.s
  match p.px_head with
  | none =>
    let r := pxs.read pxs.s len buffer
    (r.2.1, r.2.2, set_s p r.1)
  | some pxh =>
    if curpos ≥ pxh.px_headersize then
      let blocksize := pxh.px_maxtablesize * 0x400
      let blocknr := Int.tdiv (curpos - pxh.px_headersize) blocksize + 1
      let blockpos := Int.tmod (curpos - pxh.px_headersize) blocksize
      if ulong_add blockpos len > toULong blocksize then
        (0, buffer,
          px_error p pxErrorKind.PX_RuntimeError
            "Trying to read data from file exceeds block boundry.")
      else
        match (match p.curblock with
               | some b => some b
               | none => p.malloc (toULong blocksize)) with
        | none => (0, buffer, p)
        | some cb =>
          let p1 := { p with curblock := some cb }
          let p2 :=
            if p1.curblocknr ≠ blocknr then
              let s1 := (pxs.seek pxs.s (pxh.px_headersize + (blocknr - 1) * blocksize)
                Whence.SEEK_SET).1
              let r := pxs.read s1 (toULong blocksize) cb
              let cb1 :=
                if pxh.px_encryption ≠ 0 then
                  cr.px_decrypt_db_block r.2.2 pxh.px_encryption blocksize blocknr
                else r.2.2
              { set_s p1 r.1 with curblock := some cb1, curblocknr := blocknr }
            else p1
          let buffer1 := memcpy buffer 0 (p2.curblock.getD []) blockpos.toNat len
          let s3 := (p2.px_stream.seek p2.px_stream.s (toLong (ulong_add curpos len))
            Whence.SEEK_SET).1
          (len, buffer1, set_s p2 s3)
    else
      let r := pxs.read pxs.s len buffer
      (r.2.1, r.2.2, set_s p r.1)

/-- Source: `px_seek`. -/
def px_seek {σ : Type} (p : pxdoc_t σ) (offset : Int) (whence : Whence) : Int × pxdoc_t σ :=
  let r := p.px_stream.seek p.px_stream.s offset whence
  (r.2, set_s p r.1)

/-- Source: `px_tell`. -/
def px_tell {σ : Type} (p : pxdoc_t σ) : Int :=
  p.px_stream.tell p.px_stream.s

/-- Source: `px_write`.  Returns the return value and the document. -/
def px_write {σ : Type} (cr : px_crypt) (p : pxdoc_t σ) (len : Nat) (buffer : List Byte) :
    Nat × pxdoc_t σ :=
  let pxs := p.px_stream
  let curpos := pxs.tell pxs.s
  match p.px_head with
  | none =>
    let r := pxs.write pxs.s len buffer
    (r.2, set_s p r.1)
  | some pxh =>
    if curpos ≥ pxh.px_headersize then
      let blocksize := pxh.px_maxtablesize * 0x400
      let blocknr := Int.tdiv (curpos - pxh.px_headersize) blocksize + 1
      let blockpos := Int.tmod (curpos - pxh.px_headersize) blocksize
      if ulong_add blockpos len > toULong blocksize then
        (0,
          px_error p pxErrorKind.PX_RuntimeError
            "Trying to write data to file exceeds block boundry.")
      else
        match (match p.curblock with
               | some b => some b
               | none => p.malloc (toULong blocksize)) with
        | none => (0, p)
        | some cb =>
          let p1 := { p with curblock := some cb }
          let p2 :=
            if p1.curblocknr ≠ blocknr ∧ p1.curblocknr ≠ 0 then
              let s1 := (pxs.seek pxs.s
                (pxh.px_headersize + (p1.curblocknr - 1) * blocksize) Whence.SEEK_SET).1
              let cb1 :=
                if pxh.px_encryption ≠ 0 then
                  cr.px_encrypt_db_block cb pxh.px_encryption blocksize p1.curblocknr
                else cb
              let r := pxs.write s1 (toULong blocksize) cb1
              { set_s p1 r.1 with
                curblock := some (memset cb1 0 (toULong blocksize)), curblocknr := blocknr }
            else p1
          let p3 := { p2 with
            curblockdirty := true,
            curblock := some (memcpy (p2.curblock.getD []) blockpos.toNat buffer 0 len) }
          let s3 := (p3.px_stream.seek p3.px_stream.s (toLong (ulong_add curpos len))
            Whence.SEEK_SET).1
          (len, set_s p3 s3)
    else
      let r := pxs.write pxs.s len buffer
      (r.2, set_s p r.1)

/-- Source: `px_flush`.  Returns the return value and the document. -/
def px_flush {σ : Type} (cr : px_crypt) (p : pxdoc_t σ) : Int × pxdoc_t σ :=
  let pxs := p.px_stream
  match p.px_head with
  | none => (0, p)
  | some pxh =>
    let blocksize := pxh.px_maxtablesize * 0x400
    if p.curblockdirty then
      let s1 := (pxs.seek pxs.s (pxh.px_headersize + (p.curblocknr - 1) * blocksize)
        Whence.SEEK_SET).1
      let cb := p.curblock.getD []
      let cb1 :=
        if pxh.px_encryption ≠ 0 then
          cr.px_encrypt_db_block cb pxh.px_encryption blocksize p.curblocknr
        else cb
      let r := pxs.write s1 (toULong blocksize) cb1
      (0, { set_s p r.1 with
        curblock := p.curblock.map (fun _ => cb1), curblockdirty := false })
    else (0, p)

/-- Source: `px_stream_new_file`, for a document that is present and an
allocation that succeeded: the stream bound to the file transport. -/
def file_stream (mode close : Int) (fp : FILE) : pxstream_t FILE :=
  { type := pxfIOKind.pxfIOFile, mode := mode, close := close, s := fp,
    read := px_fread, seek := px_fseek, tell := px_ftell, write := px_fwrite }


/-! ## Block addressing, as computed by `px_read` and `px_write` -/

/-- The block size in bytes: `pxh->px_maxtablesize * 0x400`. -/
def blocksize (pxh : pxhead_t) : Int := pxh.px_maxtablesize * 0x400

/-- The block of a position: `((curpos - pxh->px_headersize) / blocksize) + 1`. -/
def blocknr (pxh : pxhead_t) (curpos : Int) : Int :=
  Int.tdiv (curpos - pxh.px_headersize) (blocksize pxh) + 1

/-- The offset of a position in its block: `(curpos - pxh->px_headersize) % blocksize`. -/
def blockpos (pxh : pxhead_t) (curpos : Int) : Int :=
  Int.tmod (curpos - pxh.px_headersize) (blocksize pxh)

/-- The physical offset of block `nr`: `pxh->px_headersize + ((nr-1)*blocksize)`. -/
def blockstart (pxh : pxhead_t) (nr : Int) : Int :=
  pxh.px_headersize + (nr - 1) * blocksize pxh

/-- The number of `fwrite` calls among the calls a file has received. -/
def phys_writes (ops : List FileOp) : Nat :=
  (ops.filter (fun o => match o with
    | FileOp.write _ => true
    | _ => false)).length

/-! ## Concrete documents -/

/-- An allocator that always succeeds and hands out zeroed memory. -/
def zero_malloc (n : Nat) : Option (List Byte) := some (List.replicate n 0)

/-- The collaborator that leaves every block as it is (used with encryption disabled). -/
def no_crypt : px_crypt := ⟨fun b _ _ _ => b, fun b _ _ _ => b⟩

/-- A freshly opened document over a file holding `data`: no cache buffer,
resident block number 0, dirty flag clear. -/
def open_doc (pxh : pxhead_t) (data : List Byte) : pxdoc_t FILE :=
  { px_head := some pxh, px_stream := file_stream 0 0 { data := data, pos := 0, ops := [] },
    curblock := none, curblocknr := 0, curblockdirty := false, malloc := zero_malloc,
    errors := [] }

/-- The header of the spec's scenario: header size 2048, maxtablesize 1, no encryption. -/
def hd1 : pxhead_t := ⟨2048, 1, 0⟩

/-! ## Runs over concrete documents -/

/-- The spec's scenario up to the flush: over a file of 3072 zero bytes, write
"AAAA" at 2048 and "BBBB" at 2052, then flush. -/
def run_write_flush : pxdoc_t FILE :=
  let p0 := open_doc hd1 (List.replicate 3072 0)
  let p1 := (px_seek p0 2048 Whence.SEEK_SET).2
  let p2 := (px_write no_crypt p1 4 [65, 65, 65, 65]).2
  let p3 := (px_write no_crypt p2 4 [66, 66, 66, 66]).2
  (px_flush no_crypt p3).2

/-- The rest of the spec's scenario: reopen the file fresh and read 8 bytes at 2048. -/
def run_reopen_read : Nat × List Byte × pxdoc_t FILE :=
  let q0 := open_doc hd1 run_write_flush.px_stream.s.data
  let q1 := (px_seek q0 2048 Whence.SEEK_SET).2
  px_read no_crypt q1 8 (List.replicate 8 7)

/-- From a freshly opened document: write "AAAA" at 2048, seek back, read 4 bytes. -/
def run_write_read : Nat × List Byte × pxdoc_t FILE :=
  let p0 := open_doc hd1 (List.replicate 3072 0)
  let p1 := (px_seek p0 2048 Whence.SEEK_SET).2
  let p2 := (px_write no_crypt p1 4 [65, 65, 65, 65]).2
  let p3 := (px_seek p2 2048 Whence.SEEK_SET).2
  px_read no_crypt p3 4 [7, 7, 7, 7]

/-- From a freshly opened document: write "AAAA" into block 1, write "BBBB"
into block 2, seek back and read the 4 bytes of block 1. -/
def run_switch_read : Nat × List Byte × pxdoc_t FILE :=
  let p0 := open_doc hd1 (List.replicate 4096 0)
  let p1 := (px_seek p0 2048 Whence.SEEK_SET).2
  let p2 := (px_write no_crypt p1 4 [65, 65, 65, 65]).2
  let p3 := (px_seek p2 3080 Whence.SEEK_SET).2
  let p4 := (px_write no_crypt p3 4 [66, 66, 66, 66]).2
  let p5 := (px_seek p4 2048 Whence.SEEK_SET).2
  px_read no_crypt p5 4 [7, 7, 7, 7]

/-- A document positioned one byte into block 1. -/
def doc_at_2049 : pxdoc_t FILE :=
  (px_seek (open_doc hd1 (List.replicate 3072 5)) 2049 Whence.SEEK_SET).2

/-- A document positioned four bytes before the end of block 1. -/
def doc_at_3068 : pxdoc_t FILE :=
  (px_seek (open_doc hd1 (List.replicate 3072 5)) 3068 Whence.SEEK_SET).2

/-- Block 1 is loaded by a read and then written to, so it is resident and
dirty; the position is then moved to block 2. -/
def doc_dirty_block1 : pxdoc_t FILE :=
  let p0 := open_doc hd1 (List.replicate 4096 0)
  let p1 := (px_seek p0 2048 Whence.SEEK_SET).2
  let p2 := (px_read no_crypt p1 4 [7, 7, 7, 7]).2.2
  let p3 := (px_seek p2 2048 Whence.SEEK_SET).2
  let p4 := (px_write no_crypt p3 4 [65, 65, 65, 65]).2
  (px_seek p4 3072 Whence.SEEK_SET).2

/-- From `doc_dirty_block1`: read 4 bytes of block 2, seek back to block 1 and read 4 bytes. -/
def run_read_switch : Nat × List Byte × pxdoc_t FILE :=
  let p6 := (px_read no_crypt doc_dirty_block1 4 [7, 7, 7, 7]).2.2
  let p7 := (px_seek p6 2048 Whence.SEEK_SET).2
  px_read no_crypt p7 4 [7, 7, 7, 7]

/-- Block 1 is loaded by a read, then two bytes are written at 2047, before
the header boundary, and the position is moved back to 2048. -/
def doc_stale_block1 : pxdoc_t FILE :=
  let p0 := open_doc hd1 (List.replicate 3072 0)
  let p1 := (px_seek p0 2048 Whence.SEEK_SET).2
  let p2 := (px_read no_crypt p1 4 [7, 7, 7, 7]).2.2
  let p3 := (px_seek p2 2047 Whence.SEEK_SET).2
  let p4 := (px_write no_crypt p3 2 [9, 9]).2
  (px_seek p4 2048 Whence.SEEK_SET).2

/-- A document whose block 1 is resident and dirty, holding 1024 bytes "A". -/
def doc_resident_dirty : pxdoc_t FILE :=
  { open_doc hd1 (List.replicate 3072 0) with
    curblock := some (List.replicate 1024 65), curblocknr := 1, curblockdirty := true }

/-- A document positioned at 2048 whose block 1 is resident as stored in the
file, with the dirty flag clear. -/
def doc_block1_resident : pxdoc_t FILE :=
  { px_head := some hd1,
    px_stream := file_stream 0 0 { data := List.replicate 3072 5, pos := 2048, ops := [] },
    curblock := some (window (List.replicate 3072 5) 2048 1024), curblocknr := 1,
    curblockdirty := false, malloc := zero_malloc, errors := [] }

/-! ## The stream factory -/

/-- The size passed to the allocator for a stream record, `sizeof(pxstream_t)`:
three `int`, a pointer and four function pointers on an LP64 machine. -/
def sizeof_pxstream_t : Nat := 56

/-- The call `px_error(pxdoc, kind, msg)` where `pxdoc` may be `NULL`: the
document, when there is one, records the report. -/
def px_error_at {σ : Type} (pxdoc : Option (pxdoc_t σ)) (kind : pxErrorKind) (msg : String) :
    Option (pxdoc_t σ) :=
  pxdoc.map (fun p => px_error p kind msg)

/-- The outcome of a factory call: the stream or `NULL`, the document
afterwards, and the `px_error` calls made during the call, in order. -/
structure factory_result (σ τ : Type) where
  pxs : Option τ
  pxdoc : Option (pxdoc_t σ)
  reports : List (pxErrorKind × String)

/-- Source: `px_stream_new`.  The record it returns is the allocated memory. -/
def px_stream_new {σ : Type} (pxdoc : Option (pxdoc_t σ)) : factory_result σ (List Byte) :=
  match pxdoc with
  | none =>
    { pxs := none,
      pxdoc := px_error_at pxdoc pxErrorKind.PX_RuntimeError "Did not pass a paradox database.",
      reports := [(pxErrorKind.PX_RuntimeError, "Did not pass a paradox database.")] }
  | some p =>
    match p.malloc sizeof_pxstream_t with
    | none =>
      { pxs := none,
        pxdoc := px_error_at pxdoc pxErrorKind.PX_MemoryError
          "Could not allocate memory for io stream.",
        reports := [(pxErrorKind.PX_MemoryError, "Could not allocate memory for io stream.")] }
    | some pxs => { pxs := some pxs, pxdoc := pxdoc, reports := [] }

/-- Source: `px_stream_new_file`. -/
def px_stream_new_file {σ : Type} (pxdoc : Option (pxdoc_t σ)) (mode close : Int) (fp : FILE) :
    factory_result σ (pxstream_t FILE) :=
  let r := px_stream_new pxdoc
  match r.pxs with
  | none => { pxs := none, pxdoc := r.pxdoc, reports := r.reports }
  | some _ =>
    { pxs := some
        { type := pxfIOKind.pxfIOFile, mode := mode, close := close, s := fp,
          read := px_fread, seek := px_fseek, tell := px_ftell, write := px_fwrite },
      pxdoc := r.pxdoc, reports := r.reports }

/-! ## The structured-storage transport -/

/-- The third argument of `gsf_input_seek`. -/
inductive GSeekType where
  | G_SEEK_SET
  | G_SEEK_CUR
  | G_SEEK_END
  deriving DecidableEq, Repr

/-- The structured-storage library calls used by `px_io.c`, acting on a handle
of type `γ`; `gsf_input_read` returns a pointer, held as a number. -/
structure gsf_lib (γ : Type) where
  gsf_input_read : γ → Nat → List Byte → γ × Nat × List Byte
  gsf_input_seek : γ → Int → GSeekType → γ × Int
  gsf_input_tell : γ → Int
  gsf_output_write : γ → Nat → List Byte → γ × Nat

/-- Conversion of an integer value to `int` (32 bit, two's complement). -/
def toInt32 (n : Nat) : Int :=
  if n % 2 ^ 32 < 2 ^ 31 then ((n % 2 ^ 32 : Nat) : Int) else ((n % 2 ^ 32 : Nat) : Int) - 2 ^ 32

/-- Source: `px_gsfread`. -/
def px_gsfread {γ : Type} (lib : gsf_lib γ) (stream : γ) (len : Nat) (buffer : List Byte) :
    γ × Nat × List Byte :=
  let r := lib.gsf_input_read stream len buffer
  (r.1, toULong (toInt32 r.2.1), r.2.2)

/-- Source: `px_gsfseek`. -/
def px_gsfseek {γ : Type} (lib : gsf_lib γ) (stream : γ) (offset : Int) (whence : Whence) :
    γ × Int :=
  let gsfwhence :=
    match whence with
    | Whence.SEEK_CUR => GSeekType.G_SEEK_CUR
    | Whence.SEEK_END => GSeekType.G_SEEK_END
    | Whence.SEEK_SET => GSeekType.G_SEEK_SET
  lib.gsf_input_seek stream offset gsfwhence

/-- Source: `px_gsftell`. -/
def px_gsftell {γ : Type} (lib : gsf_lib γ) (stream : γ) : Int :=
  lib.gsf_input_tell stream

/-- Source: `px_gsfwrite`. -/
def px_gsfwrite {γ : Type} (lib : gsf_lib γ) (stream : γ) (len : Nat) (buffer : List Byte) :
    γ × Nat :=
  lib.gsf_output_write stream len buffer

/-- Source: `px_stream_new_gsf`. -/
def px_stream_new_gsf {σ γ : Type} (lib : gsf_lib γ) (pxdoc : Option (pxdoc_t σ))
    (mode close : Int) (gsf : γ) : factory_result σ (pxstream_t γ) :=
  let r := px_stream_new pxdoc
  match r.pxs with
  | none => { pxs := none, pxdoc := r.pxdoc, reports := r.reports }
  | some _ =>
    { pxs := some
        { type := pxfIOKind.pxfIOGsf, mode := mode, close := close, s := gsf,
          read := px_gsfread lib, seek := px_gsfseek lib, tell := px_gsftell lib,
          write := px_gsfwrite lib },
      pxdoc := r.pxdoc, reports := r.reports }

/-! ## The blob codec -/

/-- The blob record `pxblob_t`, restricted to what `px_io.c` touches: the
parent document and the blob stream. -/
structure pxblob_t (σ τ : Type) where
  pxdoc : pxdoc_t σ
  mb_stream : pxstream_t τ

/-- The encryption collaborator of the blob pages (`px_crypt.h`): source
buffer, key and size give the destination buffer. -/
structure px_mb_crypt where
  px_encrypt_mb_block : List Byte → Nat → Nat → List Byte
  px_decrypt_mb_block : List Byte → Nat → Nat → List Byte

/-- Replaces the transport handle of the blob stream. -/
def set_mb_s {σ τ : Type} (p : pxblob_t σ τ) (s : τ) : pxblob_t σ τ :=
  { p with mb_stream := { p.mb_stream with s := s } }

/-- The value of `ENOMEM`. -/
def ENOMEM : Int := 12

/-- The page start computed by `px_mb_read`, `blockoffset = (pos >> 12) << 12`,
for `pos >= 0`: computed in `long` and stored in an `unsigned int`. -/
def mb_blockoffset (pos : Int) : Nat := ((pos.toNat >>> 12) <<< 12) % 2 ^ 32

/-- The page range length computed by `px_mb_read`,
`blockslen = (((len - 1) >> 12) + 1) << 12`: computed in `size_t` and stored in
an `unsigned int`. -/
def mb_blockslen (len : Nat) : Nat :=
  ((((((len + 2 ^ 64 - 1) % 2 ^ 64) >>> 12) + 1) % 2 ^ 64) <<< 12) % 2 ^ 64 % 2 ^ 32

/-- The three assertions of `px_mb_read`, in the types of their operands. -/
def mb_asserts (pos : Int) (len : Nat) : Bool :=
  decide (mb_blockslen len ≥ len) &&
  decide (mb_blockoffset pos ≤ toULong pos) &&
  decide ((mb_blockoffset pos + mb_blockslen len) % 2 ^ 32 ≥ ulong_add pos len)

/-- Source: `px_mb_read`.  The result is `none` when the call does not return:
an assertion fails, or the header pointer is `NULL`.  `libc_malloc` is the
allocator of the C library. -/
def px_mb_read {σ τ : Type} (mcr : px_mb_crypt) (libc_malloc : Nat → Option (List Byte))
    (p : pxblob_t σ τ) (len : Nat) (buffer : List Byte) :
    Option (Nat × List Byte × pxblob_t σ τ) :=
  let pxs := p.mb_stream
  match p.pxdoc.px_head with
  | none => none
  | some pxh =>
    if pxh.px_encryption = 0 then
      let r := pxs.read pxs.s len buffer
      some (r.2.1, r.2.2, set_mb_s p r.1)
    else
      let pos := pxs.tell pxs.s
      if pos < 0 then some (toULong pos, buffer, p)
      else
        let blockoffset := mb_blockoffset pos
        let blockslen := mb_blockslen len
        if mb_asserts pos len = false then none
        else
          let r1 := pxs.seek pxs.s (blockoffset : Int) Whence.SEEK_SET
          if r1.2 < 0 then some (toULong r1.2, buffer, set_mb_s p r1.1)
          else
            match libc_malloc blockslen with
            | none => some (toULong (-ENOMEM), buffer, set_mb_s p r1.1)
            | some tmpbuf =>
              let r2 := pxs.read r1.1 blockslen tmpbuf
              if toInt32 r2.2.1 < 0 then
                some (toULong (toInt32 r2.2.1), buffer, set_mb_s p r2.1)
              else
                let tmpbuf1 := mcr.px_decrypt_mb_block r2.2.2 pxh.px_encryption blockslen
                let buffer1 := memcpy buffer 0 tmpbuf1 (pos - (blockoffset : Int)).toNat len
                let r3 := pxs.seek r2.1 (toLong (ulong_add pos len)) Whence.SEEK_SET
                if r3.2 < 0 then some (toULong r3.2, buffer1, set_mb_s p r3.1)
                else some (len, buffer1, set_mb_s p r3.1)

/-- Source: `px_mb_seek`. -/
def px_mb_seek {σ τ : Type} (p : pxblob_t σ τ) (offset : Int) (whence : Whence) :
    Int × pxblob_t σ τ :=
  let r := p.mb_stream.seek p.mb_stream.s offset whence
  (r.2, set_mb_s p r.1)

/-- Source: `px_mb_tell`. -/
def px_mb_tell {σ τ : Type} (p : pxblob_t σ τ) : Int :=
  p.mb_stream.tell p.mb_stream.s

/-- Source: `px_mb_write`.  The first statement of the function returns the
result of the stream binding; the statements after it are never reached. -/
def px_mb_write {σ τ : Type} (p : pxblob_t σ τ) (len : Nat) (buffer : List Byte) :
    Nat × pxblob_t σ τ :=
  let r := p.mb_stream.write p.mb_stream.s len buffer
  (r.2, set_mb_s p r.1)

/-! ## Concrete documents and runs, continued -/

/-- A document over a file that ends in the middle of block 1 (2560 bytes),
positioned at the start of block 1. -/
def doc_short_file : pxdoc_t FILE :=
  (px_seek (open_doc hd1 (List.replicate 2560 5)) 2048 Whence.SEEK_SET).2

/-- A transport on which every call reports failure: its position is 2048,
`read` and `write` transfer nothing and return 0, `seek` returns -1. -/
def failing_stream : pxstream_t Unit :=
  { type := pxfIOKind.pxfIOStream, mode := 0, close := 0, s := (),
    read := fun s _ buffer => (s, 0, buffer),
    seek := fun s _ _ => (s, -1),
    tell := fun _ => 2048,
    write := fun s _ _ => (s, 0) }

/-- A document over the failing transport, with no block resident. -/
def doc_failing : pxdoc_t Unit :=
  { px_head := some hd1, px_stream := failing_stream, curblock := none, curblocknr := 0,
    curblockdirty := false, malloc := zero_malloc, errors := [] }

/-- A document over the failing transport, with block 2 resident and dirty. -/
def doc_failing_dirty : pxdoc_t Unit :=
  { doc_failing with
    curblock := some (List.replicate 1024 65), curblocknr := 2, curblockdirty := true }

/-- A header with encryption enabled: header size 2048, maxtablesize 1, key 1. -/
def hd_enc : pxhead_t := ⟨2048, 1, 1⟩

/-- A block collaborator whose encryption adds 1 to every byte and whose
decryption subtracts 1, so that decryption inverts encryption. -/
def shift_crypt : px_crypt :=
  ⟨fun b _ _ _ => b.map (fun x => x + 1), fun b _ _ _ => b.map (fun x => x - 1)⟩

/-- A page collaborator whose encryption adds 1 to every byte and whose
decryption subtracts 1, so that decryption inverts encryption. -/
def shift_mb_crypt : px_mb_crypt :=
  ⟨fun b _ _ => b.map (fun x => x + 1), fun b _ _ => b.map (fun x => x - 1)⟩

/-- A blob over a file of `n` zero bytes, with encryption enabled in the parent document. -/
def open_blob (n : Nat) : pxblob_t FILE FILE :=
  { pxdoc := open_doc hd_enc [],
    mb_stream := file_stream 0 0 { data := List.replicate n 0, pos := 0, ops := [] } }

/-- Over a blob file of 4096 zero bytes: seek to 5 and write "AAAA". -/
def run_mb_write : Nat × pxblob_t FILE FILE :=
  px_mb_write (px_mb_seek (open_blob 4096) 5 Whence.SEEK_SET).2 4 [65, 65, 65, 65]

/-- After `run_mb_write`: seek back to 5 and read 4 bytes. -/
def run_mb_write_read : Option (Nat × List Byte × pxblob_t FILE FILE) :=
  px_mb_read shift_mb_crypt zero_malloc (px_mb_seek run_mb_write.2 5 Whence.SEEK_SET).2 4
    [7, 7, 7, 7]

/-- A blob over a file of 8192 zero bytes, positioned at 4090. -/
def blob_at_4090 : pxblob_t FILE FILE :=
  (px_mb_seek (open_blob 8192) 4090 Whence.SEEK_SET).2

/-- A document with encryption enabled, positioned at 2048, whose block 1 is
resident and dirty, holding 1024 bytes "A". -/
def doc_enc_dirty : pxdoc_t FILE :=
  { px_head := some hd_enc,
    px_stream := file_stream 0 0 { data := List.replicate 3072 0, pos := 2048, ops := [] },
    curblock := some (List.replicate 1024 65), curblocknr := 1, curblockdirty := true,
    malloc := zero_malloc, errors := [] }

/-- From `doc_enc_dirty`: flush, seek back to 2048 and read 4 bytes. -/
def run_flush_read : Nat × List Byte × pxdoc_t FILE :=
  px_read shift_crypt (px_seek (px_flush shift_crypt doc_enc_dirty).2 2048 Whence.SEEK_SET).2 4
    [7, 7, 7, 7]

/-- A file of 8 bytes, positioned at its start. -/
def file8 : FILE := { data := [1, 2, 3, 4, 5, 6, 7, 8], pos := 0, ops := [] }

/-- A transport whose `tell` fails with -1 and whose other calls do nothing. -/
def tell_failing_stream : pxstream_t Unit :=
  { type := pxfIOKind.pxfIOStream, mode := 0, close := 0, s := (),
    read := fun s _ buffer => (s, 0, buffer),
    seek := fun s _ _ => (s, 0),
    tell := fun _ => -1,
    write := fun s _ _ => (s, 0) }

/-- A blob over `tell_failing_stream`, with encryption enabled in the parent document. -/
def blob_tell_failing : pxblob_t FILE Unit :=
  { pxdoc := open_doc hd_enc [], mb_stream := tell_failing_stream }

/-- A document whose block 1 is resident and dirty, holding 1024 bytes "A",
positioned at the start of block 2. -/
def doc_block1_at_block2 : pxdoc_t FILE :=
  { px_head := some hd1,
    px_stream := file_stream 0 0 { data := List.replicate 3072 0, pos := 3072, ops := [] },
    curblock := some (List.replicate 1024 65), curblocknr := 1, curblockdirty := true,
    malloc := zero_malloc, errors := [] }

/-! ## Machine integers in range -/

theorem toULong_of_range (x : Int) (h0 : 0 ≤ x) (h1 : x < 2 ^ 64) : toULong x = x.toNat := by
  unfold toULong
  rw [Int.emod_eq_of_lt h0 h1]

theorem ulong_add_of_range (x : Int) (len : Nat) (h0 : 0 ≤ x) (h1 : x + len < 2 ^ 64) :
    ulong_add x len = x.toNat + len := by
  unfold ulong_add
  rw [toULong_of_range x h0 (by omega)]
  apply Nat.mod_eq_of_lt
  omega

theorem toLong_ulong_add (x : Int) (len : Nat) (h0 : 0 ≤ x) (h1 : x + len < 2 ^ 63) :
    toLong (ulong_add x len) = x + len := by
  rw [ulong_add_of_range x len h0 (by omega)]
  unfold toLong
  have h2 : (x.toNat + len) % 2 ^ 64 = x.toNat + len := Nat.mod_eq_of_lt (by omega)
  rw [h2, if_pos (by omega)]
  omega

/-- While `blockpos + len` stays below `2^64` the boundary test of `px_read`
and `px_write` compares the integers. -/
theorem boundary_test_in_range (blockpos blocksize : Int) (len : Nat) (h0 : 0 ≤ blockpos)
    (hb0 : 0 ≤ blocksize) (hb1 : blocksize < 2 ^ 64) (h1 : blockpos + len < 2 ^ 64) :
    ulong_add blockpos len > toULong blocksize ↔ blockpos + len > blocksize := by
  rw [ulong_add_of_range blockpos len h0 h1, toULong_of_range blocksize hb0 hb1]
  omega

/-! ## Stored bytes -/

theorem store_length (data : List Byte) (pos : Nat) (src : List Byte) :
    (store data pos src).length = max data.length (pos + src.length) := by
  simp only [store, List.length_append, List.length_take, List.length_drop, List.length_replicate]
  omega

theorem store_window (data : List Byte) (pos : Nat) (src : List Byte) :
    window (store data pos src) pos src.length = src := by
  have h : (List.take pos (data ++ List.replicate (pos - data.length) 0)).length = pos := by
    simp only [List.length_take, List.length_append, List.length_replicate]; omega
  simp only [store, window]
  rw [List.drop_append_of_le_length (by omega), List.drop_of_length_le (by omega),
    List.nil_append, List.take_append_of_le_length (by omega), List.take_of_length_le (by omega)]

theorem store_getElem?_lt (data : List Byte) (pos : Nat) (src : List Byte) (i : Nat)
    (hi : i < data.length) (hp : i < pos) : (store data pos src)[i]? = data[i]? := by
  simp only [store]
  rw [List.getElem?_append_left
      (by simp only [List.length_take, List.length_append, List.length_replicate]; omega),
    List.getElem?_take_of_lt hp, List.getElem?_append_left hi]

theorem store_getElem?_ge (data : List Byte) (pos : Nat) (src : List Byte) (i : Nat)
    (hi : i < data.length) (hp : pos + src.length ≤ i) :
    (store data pos src)[i]? = data[i]? := by
  have h : (List.take pos (data ++ List.replicate (pos - data.length) 0)).length = pos := by
    simp only [List.length_take, List.length_append, List.length_replicate]; omega
  simp only [store]
  rw [List.getElem?_append_right (by omega), List.getElem?_append_right (by omega), h,
    List.getElem?_drop, List.getElem?_append_left (by omega)]
  congr 1
  omega

/-! ## What the operations keep -/

theorem px_flush_stream {σ : Type} (cr : px_crypt) (p : pxdoc_t σ) :
    (px_flush cr p).2.px_stream = { p.px_stream with s := (px_flush cr p).2.px_stream.s } ∧
    (px_flush cr p).2.px_head = p.px_head := by
  unfold px_flush
  cases hh : p.px_head with
  | none => simp [hh]
  | some pxh =>
    by_cases hd : p.curblockdirty = true
    · simp [hd, hh, set_s]
    · simp [hd, hh]

theorem px_write_stream {σ : Type} (cr : px_crypt) (p : pxdoc_t σ) (len : Nat)
    (buffer : List Byte) :
    (px_write cr p len buffer).2.px_stream =
      { p.px_stream with s := (px_write cr p len buffer).2.px_stream.s } ∧
    (px_write cr p len buffer).2.px_head = p.px_head := by
  unfold px_write
  cases hh : p.px_head with
  | none => simp [hh, set_s]
  | some pxh =>
    simp only []
    split
    · split
      · simp [hh, px_error]
      · split
        · simp [hh]
        · split <;> simp [hh, set_s]
    · simp [hh, set_s]

theorem px_write_dirty {σ : Type} (cr : px_crypt) (p : pxdoc_t σ) (pxh : pxhead_t) (len : Nat)
    (buffer : List Byte) (hh : p.px_head = some pxh)
    (hpos : pxh.px_headersize ≤ px_tell p)
    (hb : ¬ (ulong_add (blockpos pxh (px_tell p)) len > toULong (blocksize pxh)))
    (hm : p.curblock = none → (p.malloc (toULong (blocksize pxh))).isSome = true) :
    (px_write cr p len buffer).1 = len ∧ (px_write cr p len buffer).2.curblockdirty = true := by
  simp only [px_tell, blockpos, blocksize] at hpos hb hm
  unfold px_write
  simp only [hh, hpos, hb, if_true, if_false, ge_iff_le]
  cases hc : p.curblock with
  | some b => simp [set_s]
  | none =>
    have := hm hc
    cases hmm : p.malloc (toULong (pxh.px_maxtablesize * 0x400)) with
    | none => rw [hmm] at this; simp at this
    | some b => simp [set_s]

theorem phys_writes_append (a b : List FileOp) :
    phys_writes (a ++ b) = phys_writes a + phys_writes b := by
  simp [phys_writes, List.filter_append]

theorem px_flush_ops_dirty (cr : px_crypt) (p : pxdoc_t FILE) (pxh : pxhead_t)
    (hf : p.px_stream.seek = px_fseek ∧ p.px_stream.write = px_fwrite)
    (hh : p.px_head = some pxh) (hd : p.curblockdirty = true) :
    (px_flush cr p).2.px_stream.s.ops = p.px_stream.s.ops ++
      [FileOp.seek (blockstart pxh p.curblocknr) Whence.SEEK_SET,
       FileOp.write (toULong (blocksize pxh))] := by
  simp only [px_flush, hh, hd, hf.1, hf.2, px_fseek, fseek, px_fwrite, fwrite, set_s, if_true,
    blockstart, blocksize]
  split <;> simp

theorem px_flush_alloc {σ : Type} (cr : px_crypt) (p : pxdoc_t σ) :
    (px_flush cr p).2.malloc = p.malloc ∧
    ((px_flush cr p).2.curblock = none ↔ p.curblock = none) := by
  unfold px_flush
  cases hh : p.px_head with
  | none => simp
  | some pxh =>
    by_cases hd : p.curblockdirty = true
    · simp [hd, set_s]
    · simp [hd]

theorem px_flush_twice {σ : Type} (cr : px_crypt) (p : pxdoc_t σ) :
    px_flush cr (px_flush cr p).2 = (0, (px_flush cr p).2) := by
  cases hh : p.px_head with
  | none => simp [px_flush, hh]
  | some pxh =>
    by_cases hd : p.curblockdirty = true
    · have h1 : (px_flush cr p).2.curblockdirty = false := by simp [px_flush, hh, hd]
      have h2 : (px_flush cr p).2.px_head = some pxh := by
        rw [(px_flush_stream cr p).2, hh]
      generalize (px_flush cr p).2 = q at h1 h2
      simp [px_flush, h1, h2]
    · have h1 : (px_flush cr p).2 = p := by simp [px_flush, hh, hd]
      rw [h1]
      simp [px_flush, hh, hd]

theorem px_flush_writes_le (cr : px_crypt) (p : pxdoc_t FILE)
    (hf : p.px_stream.seek = px_fseek ∧ p.px_stream.write = px_fwrite) :
    phys_writes (px_flush cr p).2.px_stream.s.ops ≤ phys_writes p.px_stream.s.ops + 1 := by
  cases hh : p.px_head with
  | none => simp [px_flush, hh]
  | some pxh =>
    by_cases hd : p.curblockdirty = true
    · rw [px_flush_ops_dirty cr p pxh hf hh hd, phys_writes_append]
      simp [phys_writes]
    · simp [px_flush, hh, hd]


/-! ## The two cached paths of `px_read` -/

theorem memcpy_front (buffer src : List Byte) (k len : Nat) :
    memcpy buffer 0 src k len = window src k len ++ buffer.drop len := by
  simp [memcpy, window]

theorem px_read_hit {σ : Type} (cr : px_crypt) (p : pxdoc_t σ) (pxh : pxhead_t) (len : Nat)
    (buffer cb : List Byte) (hh : p.px_head = some pxh)
    (hpos : pxh.px_headersize ≤ px_tell p)
    (hb : ¬ (ulong_add (blockpos pxh (px_tell p)) len > toULong (blocksize pxh)))
    (hc : p.curblock = some cb ∨
      (p.curblock = none ∧ p.malloc (toULong (blocksize pxh)) = some cb))
    (hnr : p.curblocknr = blocknr pxh (px_tell p)) :
    px_read cr p len buffer =
      (len, memcpy buffer 0 cb (blockpos pxh (px_tell p)).toNat len,
       set_s { p with curblock := some cb }
         (p.px_stream.seek p.px_stream.s (toLong (ulong_add (px_tell p) len))
           Whence.SEEK_SET).1) := by
  simp only [px_tell, blockpos, blocksize, blocknr] at hpos hb hc hnr ⊢
  unfold px_read
  simp only [hh, hpos, hb, if_true, if_false, ge_iff_le]
  rcases hc with hc | ⟨hc, hm⟩
  · simp [hc, hnr, set_s]
  · simp [hc, hm, hnr, set_s]

theorem px_read_miss {σ : Type} (cr : px_crypt) (p : pxdoc_t σ) (pxh : pxhead_t) (len : Nat)
    (buffer cb : List Byte) (hh : p.px_head = some pxh)
    (hpos : pxh.px_headersize ≤ px_tell p)
    (hb : ¬ (ulong_add (blockpos pxh (px_tell p)) len > toULong (blocksize pxh)))
    (hc : p.curblock = some cb ∨
      (p.curblock = none ∧ p.malloc (toULong (blocksize pxh)) = some cb))
    (hnr : p.curblocknr ≠ blocknr pxh (px_tell p)) :
    px_read cr p len buffer =
      (len,
       memcpy buffer 0
         (if pxh.px_encryption ≠ 0 then
            cr.px_decrypt_db_block
              (p.px_stream.read
                (p.px_stream.seek p.px_stream.s (blockstart pxh (blocknr pxh (px_tell p)))
                  Whence.SEEK_SET).1 (toULong (blocksize pxh)) cb).2.2
              pxh.px_encryption (blocksize pxh) (blocknr pxh (px_tell p))
          else
            (p.px_stream.read
              (p.px_stream.seek p.px_stream.s (blockstart pxh (blocknr pxh (px_tell p)))
                Whence.SEEK_SET).1 (toULong (blocksize pxh)) cb).2.2)
         (blockpos pxh (px_tell p)).toNat len,
       set_s { p with
           curblock := some
             (if pxh.px_encryption ≠ 0 then
                cr.px_decrypt_db_block
                  (p.px_stream.read
                    (p.px_stream.seek p.px_stream.s (blockstart pxh (blocknr pxh (px_tell p)))
                      Whence.SEEK_SET).1 (toULong (blocksize pxh)) cb).2.2
                  pxh.px_encryption (blocksize pxh) (blocknr pxh (px_tell p))
              else
                (p.px_stream.read
                  (p.px_stream.seek p.px_stream.s (blockstart pxh (blocknr pxh (px_tell p)))
                    Whence.SEEK_SET).1 (toULong (blocksize pxh)) cb).2.2),
           curblocknr := blocknr pxh (px_tell p) }
         (p.px_stream.seek
           (p.px_stream.read
             (p.px_stream.seek p.px_stream.s (blockstart pxh (blocknr pxh (px_tell p)))
               Whence.SEEK_SET).1 (toULong (blocksize pxh)) cb).1
           (toLong (ulong_add (px_tell p) len)) Whence.SEEK_SET).1) := by
  simp only [px_tell, blockpos, blocksize, blocknr, blockstart] at hpos hb hc hnr ⊢
  unfold px_read
  simp only [hh, hpos, hb, if_true, if_false, ge_iff_le]
  rcases hc with hc | ⟨hc, hm⟩
  · simp [hc, hnr, set_s]
  · simp [hc, hm, hnr, set_s]

/-! ## Block addressing -/

theorem block_addressing (pxh : pxhead_t) (curpos : Int) (hbs : 0 < blocksize pxh)
    (hpos : pxh.px_headersize ≤ curpos) :
    1 ≤ blocknr pxh curpos ∧ 0 ≤ blockpos pxh curpos ∧
    blockpos pxh curpos < blocksize pxh ∧
    blockstart pxh (blocknr pxh curpos) + blockpos pxh curpos = curpos := by
  have ha : 0 ≤ curpos - pxh.px_headersize := by omega
  have h1 : 0 ≤ Int.tdiv (curpos - pxh.px_headersize) (blocksize pxh) :=
    Int.tdiv_nonneg ha (le_of_lt hbs)
  have h2 : 0 ≤ Int.tmod (curpos - pxh.px_headersize) (blocksize pxh) := Int.tmod_nonneg _ ha
  have h3 : Int.tmod (curpos - pxh.px_headersize) (blocksize pxh) < blocksize pxh :=
    Int.tmod_lt_of_pos _ hbs
  have h4 := Int.tdiv_add_tmod' (curpos - pxh.px_headersize) (blocksize pxh)
  refine ⟨?_, h2, h3, ?_⟩
  · unfold blocknr; omega
  · unfold blockstart blocknr blockpos
    have : (Int.tdiv (curpos - pxh.px_headersize) (blocksize pxh) + 1 - 1) * blocksize pxh
        = Int.tdiv (curpos - pxh.px_headersize) (blocksize pxh) * blocksize pxh := by
      congr 1; omega
    rw [this]; omega

theorem window_length (data : List Byte) (pos n : Nat) (h : pos + n ≤ data.length) :
    (window data pos n).length = n := by
  simp only [window, List.length_take, List.length_drop]; omega

theorem window_window (data : List Byte) (pos n k len : Nat) (h : k + len ≤ n) :
    window (window data pos n) k len = window data (pos + k) len := by
  simp only [window]
  rw [List.drop_take, List.take_take, List.drop_drop, Nat.min_eq_left (by omega)]

theorem file_load (fp : FILE) (off : Int) (n : Nat) (cb : List Byte) (h0 : 0 ≤ off)
    (hfile : off.toNat + n ≤ fp.data.length) (hcl : cb.length = n) :
    px_fread (px_fseek fp off Whence.SEEK_SET).1 n cb =
      ({ data := fp.data, pos := off.toNat + n,
         ops := fp.ops ++ [FileOp.seek off Whence.SEEK_SET, FileOp.read n] },
       n / n, window fp.data off.toNat n) := by
  have hn : ¬ (off < 0) := by omega
  have hw : (window fp.data off.toNat n).length = n := window_length _ _ _ hfile
  simp only [px_fread, px_fseek, fread, fseek, zero_add, hn, if_false, mul_one, hw]
  rw [List.drop_of_length_le (by omega)]
  simp


/-! ## The resident block number across a first write -/

/-- A `px_write` issued while the resident block number is 0 leaves it at 0,
on every path: the assignment `p->curblocknr = blocknr` sits inside the branch
guarded by `p->curblocknr != 0`. -/
theorem px_write_keeps_resident_zero {σ : Type} (cr : px_crypt) (p : pxdoc_t σ) (len : Nat)
    (buffer : List Byte) (h0 : p.curblocknr = 0) :
    (px_write cr p len buffer).2.curblocknr = 0 := by
  unfold px_write
  cases hh : p.px_head with
  | none => simp [set_s, h0]
  | some pxh =>
    simp only []
    split
    · split
      · simp [px_error, h0]
      · split
        · simp [h0]
        · simp [set_s, h0]
    · simp [set_s, h0]

/-! ## The claims -/

set_option maxRecDepth 100000 in
/-- C1 (write, flush, fresh read round trip), evaluated on the scenario of the
spec: over a file of 3072 zero bytes with header size 2048 and maxtablesize 1,
the two writes leave the resident block number at 0, so the flush seeks to
`2048 + (0-1)*1024 = 1024` and stores the block there; the backend then holds
"AAAABBBB" at offset 1024, bytes 2048..2055 are still zero, and the read in a
fresh session returns 8 and delivers eight zero bytes. -/
theorem C1_flush_after_first_write_misplaces_block :
    run_write_flush.curblocknr = 0 ∧
    run_write_flush.px_stream.s.ops =
      [FileOp.seek 2048 Whence.SEEK_SET, FileOp.seek 2052 Whence.SEEK_SET,
       FileOp.seek 2056 Whence.SEEK_SET, FileOp.seek 1024 Whence.SEEK_SET,
       FileOp.write 1024] ∧
    window run_write_flush.px_stream.s.data 1024 8 = [65, 65, 65, 65, 66, 66, 66, 66] ∧
    window run_write_flush.px_stream.s.data 2048 8 = [0, 0, 0, 0, 0, 0, 0, 0] ∧
    run_reopen_read.1 = 8 ∧
    run_reopen_read.2.1 = [0, 0, 0, 0, 0, 0, 0, 0] := by
  decide

set_option maxRecDepth 100000 in
/-- C2 (same-session write then read), evaluated from the initial cache state:
after `px_write` of "AAAA" at 2048 the resident block number is still 0, so the
`px_read` at 2048 takes the miss path, loads block 1 from the file over the
written bytes, returns 4 and delivers four zero bytes instead of "AAAA". -/
theorem C2_first_write_is_not_read_back :
    run_write_read.1 = 4 ∧ run_write_read.2.1 = [0, 0, 0, 0] ∧
    run_write_read.2.1 ≠ [65, 65, 65, 65] := by
  decide

set_option maxRecDepth 100000 in
/-- C3 (round trip across a block switch), evaluated from a freshly opened
document: the write into block 2 finds resident block number 0 and so stores
nothing, no `fwrite` reaches the file during the run, and the read of block 1
returns 4 and delivers four zero bytes instead of "AAAA". -/
theorem C3_block_switch_from_fresh_loses_block :
    run_switch_read.1 = 4 ∧ run_switch_read.2.1 = [0, 0, 0, 0] ∧
    run_switch_read.2.1 ≠ [65, 65, 65, 65] ∧
    phys_writes run_switch_read.2.2.px_stream.s.ops = 0 := by
  decide

set_option maxRecDepth 100000 in
/-- C4 (every cross-block request is rejected), evaluated at block offset 1
with `len = 2^64 - 1` and block size 1024: `blockpos + len` wraps to 0, the
test `blockpos+len > blocksize` is false, and both `px_read` and `px_write`
report no error, return `len` and copy bytes. -/
theorem C4_boundary_check_wraps :
    blockpos hd1 (px_tell doc_at_2049) = 1 ∧ blocksize hd1 = 1024 ∧
    ulong_add (blockpos hd1 (px_tell doc_at_2049)) (2 ^ 64 - 1) = 0 ∧
    (px_read no_crypt doc_at_2049 (2 ^ 64 - 1) [7, 7, 7, 7]).1 = 2 ^ 64 - 1 ∧
    (px_read no_crypt doc_at_2049 (2 ^ 64 - 1) [7, 7, 7, 7]).2.1.take 4 = [5, 5, 5, 5] ∧
    (px_read no_crypt doc_at_2049 (2 ^ 64 - 1) [7, 7, 7, 7]).2.2.errors = [] ∧
    (px_write no_crypt doc_at_2049 (2 ^ 64 - 1) [7, 7, 7, 7]).1 = 2 ^ 64 - 1 ∧
    (px_write no_crypt doc_at_2049 (2 ^ 64 - 1) [7, 7, 7, 7]).2.curblock.map
      (fun b => window b 1 4) = some [7, 7, 7, 7] ∧
    (px_write no_crypt doc_at_2049 (2 ^ 64 - 1) [7, 7, 7, 7]).2.errors = [] := by
  decide

/-- C5 (a boundary violation is atomic): when the header is present, the
position is at or past the header size and the block-boundary test fires,
`px_read` returns 0 with the caller buffer as it was and `px_write` returns 0,
and the document afterwards is the document before with one report appended to
the error collaborator; transport, cache buffer, resident block number and
dirty flag are the same. -/
theorem C5_boundary_violation_atomic {σ : Type} (cr : px_crypt) (p : pxdoc_t σ)
    (pxh : pxhead_t) (len : Nat) (buffer : List Byte) (hh : p.px_head = some pxh)
    (hpos : pxh.px_headersize ≤ px_tell p)
    (hb : ulong_add (blockpos pxh (px_tell p)) len > toULong (blocksize pxh)) :
    px_read cr p len buffer =
      (0, buffer, { p with errors := p.errors ++
        [(pxErrorKind.PX_RuntimeError,
          "Trying to read data from file exceeds block boundry.")] }) ∧
    px_write cr p len buffer =
      (0, { p with errors := p.errors ++
        [(pxErrorKind.PX_RuntimeError,
          "Trying to write data to file exceeds block boundry.")] }) := by
  simp only [px_tell, blockpos, blocksize] at hpos hb
  simp [px_read, px_write, hh, hpos, hb, px_error]

/-- C5 at a document positioned 4 bytes before the end of block 1, with `len = 8`. -/
theorem C5_boundary_violation_atomic_witness :
    ulong_add (blockpos hd1 (px_tell doc_at_3068)) 8 > toULong (blocksize hd1) ∧
    px_read no_crypt doc_at_3068 8 [7, 7, 7, 7, 7, 7, 7, 7] =
      (0, [7, 7, 7, 7, 7, 7, 7, 7], { doc_at_3068 with errors := doc_at_3068.errors ++
        [(pxErrorKind.PX_RuntimeError,
          "Trying to read data from file exceeds block boundry.")] }) ∧
    px_write no_crypt doc_at_3068 8 [7, 7, 7, 7, 7, 7, 7, 7] =
      (0, { doc_at_3068 with errors := doc_at_3068.errors ++
        [(pxErrorKind.PX_RuntimeError,
          "Trying to write data to file exceeds block boundry.")] }) :=
  ⟨by decide,
   C5_boundary_violation_atomic no_crypt doc_at_3068 hd1 8 [7, 7, 7, 7, 7, 7, 7, 7] rfl
     (by decide) (by decide)⟩

set_option maxRecDepth 100000 in
/-- C6 as stated fails on a cache hit: block 1 is loaded, two bytes are then
written at 2047 (before the header boundary, so straight to the file), and with
the dirty flag clear the read of one byte at 2048 returns 1 and delivers the
cached 0 while the file stores 9 at offset 2048. -/
theorem C6_cache_hit_serves_stale_bytes :
    doc_stale_block1.px_head = some hd1 ∧
    px_tell doc_stale_block1 = 2048 ∧
    doc_stale_block1.curblocknr = 1 ∧
    doc_stale_block1.curblockdirty = false ∧
    (px_read no_crypt doc_stale_block1 1 [7]).1 = 1 ∧
    (px_read no_crypt doc_stale_block1 1 [7]).2.1 = [0] ∧
    window doc_stale_block1.px_stream.s.data 2048 1 = [9] ∧
    (px_read no_crypt doc_stale_block1 1 [7]).2.1 ≠
      window doc_stale_block1.px_stream.s.data 2048 1 := by
  decide
/-- The cached path of `px_read` over the file transport, with the whole
target block stored in the file: what is returned and kept in either case, what
the caller receives on a miss, and what the caller receives on a hit. -/
theorem px_read_file_postcondition (cr : px_crypt) (p : pxdoc_t FILE) (pxh : pxhead_t)
    (m c : Int) (fp : FILE)
    (len : Nat) (buffer : List Byte)
    (hstream : p.px_stream = file_stream m c fp)
    (hh : p.px_head = some pxh)
    (hhs : 0 ≤ pxh.px_headersize)
    (hbs : 0 < blocksize pxh) (hbs63 : blocksize pxh < 2 ^ 63)
    (hpos : pxh.px_headersize ≤ (fp.pos : Int))
    (hfit : blockpos pxh fp.pos + len ≤ blocksize pxh)
    (hend : (fp.pos : Int) + len < 2 ^ 63)
    (hbuf : ∀ b, p.curblock = some b → (b.length : Int) = blocksize pxh)
    (hmalloc : p.curblock = none →
      ∃ b, p.malloc (toULong (blocksize pxh)) = some b ∧ (b.length : Int) = blocksize pxh)
    (hfile : blockstart pxh (blocknr pxh fp.pos) + blocksize pxh ≤ fp.data.length) :
    (px_read cr p len buffer).1 = len ∧
    (px_read cr p len buffer).2.2.curblocknr = blocknr pxh fp.pos ∧
    px_tell (px_read cr p len buffer).2.2 = fp.pos + len ∧
    (px_read cr p len buffer).2.2.px_stream.s.data = fp.data ∧
    (p.curblocknr ≠ blocknr pxh fp.pos →
      (px_read cr p len buffer).2.1 =
        window
          (if pxh.px_encryption ≠ 0 then
            cr.px_decrypt_db_block
              (window fp.data (blockstart pxh (blocknr pxh fp.pos)).toNat (blocksize pxh).toNat)
              pxh.px_encryption (blocksize pxh) (blocknr pxh fp.pos)
           else window fp.data (blockstart pxh (blocknr pxh fp.pos)).toNat (blocksize pxh).toNat)
          (blockpos pxh fp.pos).toNat len ++ buffer.drop len ∧
      (pxh.px_encryption = 0 →
        (px_read cr p len buffer).2.1 = window fp.data fp.pos len ++ buffer.drop len)) ∧
    (p.curblocknr = blocknr pxh fp.pos → ∀ cb, p.curblock = some cb →
      (px_read cr p len buffer).2.1 =
        window cb (blockpos pxh fp.pos).toNat len ++ buffer.drop len ∧
      (px_read cr p len buffer).2.2.curblock = some cb ∧
      (px_read cr p len buffer).2.2.px_stream.s.ops =
        fp.ops ++ [FileOp.seek (fp.pos + len) Whence.SEEK_SET]) := by
  obtain ⟨hnr1, hbp0, hbplt, haddr⟩ := block_addressing pxh fp.pos hbs hpos
  have htell : px_tell p = fp.pos := by simp [px_tell, hstream, file_stream, px_ftell, ftell]
  have hu : toULong (blocksize pxh) = (blocksize pxh).toNat :=
    toULong_of_range _ (le_of_lt hbs) (by omega)
  have hguard : ¬ (ulong_add (blockpos pxh (px_tell p)) len > toULong (blocksize pxh)) := by
    rw [htell, hu, ulong_add_of_range _ _ hbp0 (by omega)]
    omega
  have hseekto : toLong (ulong_add (px_tell p) len) = fp.pos + len := by
    rw [htell]; exact toLong_ulong_add _ _ (by omega) hend
  have hpos' : pxh.px_headersize ≤ px_tell p := by rw [htell]; exact hpos
  have hstart0 : 0 ≤ blockstart pxh (blocknr pxh fp.pos) := by
    unfold blockstart
    have : 0 ≤ (blocknr pxh fp.pos - 1) * blocksize pxh := mul_nonneg (by omega) (le_of_lt hbs)
    omega
  have hn1 : ¬ ((fp.pos : Int) + len < 0) := by omega
  have hn2 : ¬ (blockstart pxh (blocknr pxh fp.pos) < 0) := by omega
  obtain ⟨cb, hc, hcl⟩ : ∃ cb, (p.curblock = some cb ∨
      (p.curblock = none ∧ p.malloc (toULong (blocksize pxh)) = some cb)) ∧
      (cb.length : Int) = blocksize pxh := by
    cases hcb : p.curblock with
    | some b => exact ⟨b, Or.inl rfl, hbuf b hcb⟩
    | none =>
      obtain ⟨b, hb1, hb2⟩ := hmalloc hcb
      exact ⟨b, Or.inr ⟨rfl, hb1⟩, hb2⟩
  have hwl : (window fp.data (blockstart pxh (blocknr pxh fp.pos)).toNat
      (blocksize pxh).toNat).length = (blocksize pxh).toNat :=
    window_length _ _ _ (by omega)
  by_cases hnr : p.curblocknr = blocknr pxh fp.pos
  · have hr := px_read_hit cr p pxh len buffer cb hh hpos' hguard hc (by rw [htell]; exact hnr)
    rw [hseekto, htell] at hr
    rw [hr]
    refine ⟨rfl, ?_, ?_, ?_, ?_, ?_⟩
    · simp [set_s, hnr]
    · simp [px_tell, set_s, hstream, file_stream, px_fseek, fseek, px_ftell, ftell, hn1]
      omega
    · simp only [set_s, hstream, file_stream, px_fseek, fseek, zero_add]
      split <;> rfl
    · intro hne; exact absurd hnr hne
    · intro _ cb2 hcb2
      have hcc : cb = cb2 := by
        rcases hc with hc | ⟨hc, _⟩
        · rw [hc] at hcb2; exact Option.some.inj hcb2
        · rw [hc] at hcb2; cases hcb2
      subst hcc
      refine ⟨memcpy_front _ _ _ _, ?_, ?_⟩
      · simp [set_s]
      · simp only [set_s, hstream, file_stream, px_fseek, fseek, zero_add]
        split <;> rfl
  · have hr := px_read_miss cr p pxh len buffer cb hh hpos' hguard hc
      (by rw [htell]; exact hnr)
    rw [hseekto, htell, hu] at hr
    have hload := file_load fp (blockstart pxh (blocknr pxh fp.pos)) (blocksize pxh).toNat cb
      hstart0 (by omega) (by omega)
    have hrd : p.px_stream.read (p.px_stream.seek p.px_stream.s
        (blockstart pxh (blocknr pxh fp.pos)) Whence.SEEK_SET).1 (blocksize pxh).toNat cb =
        px_fread (px_fseek fp (blockstart pxh (blocknr pxh fp.pos)) Whence.SEEK_SET).1
          (blocksize pxh).toNat cb := by
      rw [hstream]; rfl
    rw [hrd, hload] at hr
    rw [hr]
    refine ⟨rfl, ?_, ?_, ?_, ?_, ?_⟩
    · simp [set_s]
    · simp [px_tell, set_s, hstream, file_stream, px_fseek, fseek, px_ftell, ftell, hn1]
      omega
    · simp only [set_s, hstream, file_stream, px_fseek, fseek, zero_add]
      split <;> rfl
    · intro _
      refine ⟨memcpy_front _ _ _ _, ?_⟩
      intro he
      rw [memcpy_front]
      simp only [he, ne_eq, not_true_eq_false, if_false]
      rw [window_window _ _ _ _ _ (by omega)]
      congr 2
      omega
    · intro he; exact absurd he hnr

/-- C6 as amended (postcondition of a cached read), over the file transport:
for a position `curpos >= headersize` with `blockoffset + len <= blocksize`,
the whole block `blocknr` stored in the file, and a cache buffer that, if
`blocknr` is already resident, holds that stored block (decrypted when
encryption is enabled), `px_read` returns `len`, the caller receives bytes
`[blockoffset, blockoffset+len)` of the stored block (decrypted over the whole
block with index `blocknr` when encryption is enabled), which are the file
bytes `[curpos, curpos+len)` when encryption is disabled, `blocknr` is resident
afterwards, the position is `curpos + len`, and the file bytes are the same. -/
theorem C6_cached_read_postcondition (cr : px_crypt) (p : pxdoc_t FILE) (pxh : pxhead_t)
    (m c : Int) (fp : FILE) (len : Nat) (buffer : List Byte)
    (hstream : p.px_stream = file_stream m c fp)
    (hh : p.px_head = some pxh)
    (hhs : 0 ≤ pxh.px_headersize)
    (hbs : 0 < blocksize pxh) (hbs63 : blocksize pxh < 2 ^ 63)
    (hpos : pxh.px_headersize ≤ (fp.pos : Int))
    (hfit : blockpos pxh fp.pos + len ≤ blocksize pxh)
    (hend : (fp.pos : Int) + len < 2 ^ 63)
    (hbuf : ∀ b, p.curblock = some b → (b.length : Int) = blocksize pxh)
    (hmalloc : p.curblock = none →
      ∃ b, p.malloc (toULong (blocksize pxh)) = some b ∧ (b.length : Int) = blocksize pxh)
    (hfile : blockstart pxh (blocknr pxh fp.pos) + blocksize pxh ≤ fp.data.length)
    (hcoherent : p.curblocknr = blocknr pxh fp.pos →
      p.curblock = some
        (if pxh.px_encryption ≠ 0 then
          cr.px_decrypt_db_block
            (window fp.data (blockstart pxh (blocknr pxh fp.pos)).toNat (blocksize pxh).toNat)
            pxh.px_encryption (blocksize pxh) (blocknr pxh fp.pos)
         else
          window fp.data (blockstart pxh (blocknr pxh fp.pos)).toNat (blocksize pxh).toNat)) :
    (px_read cr p len buffer).1 = len ∧
    (px_read cr p len buffer).2.1 =
      window
        (if pxh.px_encryption ≠ 0 then
          cr.px_decrypt_db_block
            (window fp.data (blockstart pxh (blocknr pxh fp.pos)).toNat (blocksize pxh).toNat)
            pxh.px_encryption (blocksize pxh) (blocknr pxh fp.pos)
         else window fp.data (blockstart pxh (blocknr pxh fp.pos)).toNat (blocksize pxh).toNat)
        (blockpos pxh fp.pos).toNat len ++ buffer.drop len ∧
    (pxh.px_encryption = 0 →
      (px_read cr p len buffer).2.1 = window fp.data fp.pos len ++ buffer.drop len) ∧
    (px_read cr p len buffer).2.2.curblocknr = blocknr pxh fp.pos ∧
    px_tell (px_read cr p len buffer).2.2 = fp.pos + len ∧
    (px_read cr p len buffer).2.2.px_stream.s.data = fp.data := by
  obtain ⟨h1, h2, h3, h4, hmiss, hhit⟩ := px_read_file_postcondition cr p pxh m c fp len buffer
    hstream hh hhs hbs hbs63 hpos hfit hend hbuf hmalloc hfile
  obtain ⟨_, hbp0, _, haddr⟩ := block_addressing pxh fp.pos hbs hpos
  have hmain : (px_read cr p len buffer).2.1 =
      window
        (if pxh.px_encryption ≠ 0 then
          cr.px_decrypt_db_block
            (window fp.data (blockstart pxh (blocknr pxh fp.pos)).toNat (blocksize pxh).toNat)
            pxh.px_encryption (blocksize pxh) (blocknr pxh fp.pos)
         else window fp.data (blockstart pxh (blocknr pxh fp.pos)).toNat (blocksize pxh).toNat)
        (blockpos pxh fp.pos).toNat len ++ buffer.drop len := by
    by_cases hnr : p.curblocknr = blocknr pxh fp.pos
    · exact (hhit hnr _ (hcoherent hnr)).1
    · exact (hmiss hnr).1
  refine ⟨h1, hmain, ?_, h2, h3, h4⟩
  intro he
  rw [hmain]
  simp only [he, ne_eq, not_true_eq_false, if_false]
  have hstart0 : 0 ≤ blockstart pxh (blocknr pxh fp.pos) := by
    unfold blockstart
    have : 0 ≤ (blocknr pxh fp.pos - 1) * blocksize pxh := mul_nonneg (by omega) (le_of_lt hbs)
    omega
  rw [window_window _ _ _ _ _ (by omega)]
  congr 2
  omega

set_option maxRecDepth 100000 in
/-- C6 as amended at a document whose block 1 is resident as stored in the
file, positioned at 2048: the read of 8 bytes delivers the 8 file bytes at
2048. -/
theorem C6_cached_read_postcondition_witness :
    doc_block1_resident.curblocknr = blocknr hd1 2048 ∧
    (px_read no_crypt doc_block1_resident 8 (List.replicate 8 7)).1 = 8 ∧
    (px_read no_crypt doc_block1_resident 8 (List.replicate 8 7)).2.2.curblocknr
      = blocknr hd1 2048 ∧
    px_tell (px_read no_crypt doc_block1_resident 8 (List.replicate 8 7)).2.2 = 2048 + 8 ∧
    (px_read no_crypt doc_block1_resident 8 (List.replicate 8 7)).2.1 =
      window (List.replicate 3072 5) 2048 8 ++ (List.replicate 8 7).drop 8 :=
  have h := C6_cached_read_postcondition no_crypt doc_block1_resident hd1 0 0
    { data := List.replicate 3072 5, pos := 2048, ops := [] }
    8 (List.replicate 8 7) rfl rfl (by decide) (by decide) (by decide) (by decide)
    (by decide) (by decide)
    (fun b hb => by
      cases hb
      rw [window_length _ _ _ (by rw [List.length_replicate])]
      decide)
    (fun hn => by cases hn)
    (by
      show blockstart hd1 (blocknr hd1 2048) + blocksize hd1
        ≤ ((List.replicate 3072 (5 : Byte)).length : Int)
      rw [List.length_replicate]; decide)
    (fun _ => rfl)
  ⟨by decide, h.1, h.2.2.2.1, h.2.2.2.2.1, h.2.2.1 rfl⟩

/-- C7 (postcondition of flush), over the file transport: with the header
present, block `R >= 1` resident in a buffer of `blocksize` bytes and the dirty
flag set, `px_flush` returns 0, clears the dirty flag, issues one seek to
`headersize + (R-1)*blocksize` and one write of `blocksize` bytes, after which
the file holds the buffer (encrypted with index `R` when encryption is enabled)
in that range and every other byte it held before is the same; with the dirty
flag clear `px_flush` returns 0 and the document is the same. -/
theorem C7_flush_postcondition (cr : px_crypt) (p : pxdoc_t FILE) (pxh : pxhead_t) (m c : Int)
    (fp : FILE)
    (cb : List Byte)
    (hstream : p.px_stream = file_stream m c fp)
    (hh : p.px_head = some pxh)
    (hhs : 0 ≤ pxh.px_headersize) (hbs : 0 ≤ blocksize pxh) (hbs64 : blocksize pxh < 2 ^ 64)
    (hR : 1 ≤ p.curblocknr) (hcb : p.curblock = some cb)
    (hlen : (cb.length : Int) = blocksize pxh)
    (henc : pxh.px_encryption ≠ 0 →
      (cr.px_encrypt_db_block cb pxh.px_encryption (blocksize pxh) p.curblocknr).length
        = cb.length) :
    (p.curblockdirty = true →
      (px_flush cr p).1 = 0 ∧
      (px_flush cr p).2.curblockdirty = false ∧
      (px_flush cr p).2.px_stream.s.ops = fp.ops ++
        [FileOp.seek (blockstart pxh p.curblocknr) Whence.SEEK_SET,
         FileOp.write (blocksize pxh).toNat] ∧
      window (px_flush cr p).2.px_stream.s.data (blockstart pxh p.curblocknr).toNat
          (blocksize pxh).toNat =
        (if pxh.px_encryption ≠ 0 then
          cr.px_encrypt_db_block cb pxh.px_encryption (blocksize pxh) p.curblocknr
         else cb) ∧
      (∀ i : Nat, i < fp.data.length →
        (i < (blockstart pxh p.curblocknr).toNat ∨
          (blockstart pxh p.curblocknr).toNat + (blocksize pxh).toNat ≤ i) →
        (px_flush cr p).2.px_stream.s.data[i]? = fp.data[i]?) ∧
      (px_flush cr p).2.px_stream.s.data.length =
        max fp.data.length ((blockstart pxh p.curblocknr).toNat + (blocksize pxh).toNat)) ∧
    (p.curblockdirty = false → px_flush cr p = (0, p)) := by
  have hu : toULong (pxh.px_maxtablesize * 1024) = cb.length := by
    have := toULong_of_range (blocksize pxh) hbs hbs64
    simp only [blocksize] at this hlen
    rw [show (0x400 : Int) = 1024 from rfl] at this hlen
    rw [this]; omega
  have hoff : 0 ≤ blockstart pxh p.curblocknr := by
    unfold blockstart
    have : 0 ≤ (p.curblocknr - 1) * blocksize pxh := mul_nonneg (by omega) hbs
    omega
  have hoff2 : ¬ (blockstart pxh p.curblocknr < 0) := by omega
  have hbsn : (blocksize pxh).toNat = cb.length := by omega
  constructor
  · intro hd
    set out := (if pxh.px_encryption ≠ 0 then
          cr.px_encrypt_db_block cb pxh.px_encryption (blocksize pxh) p.curblocknr
         else cb) with hout
    have hol : out.length = cb.length := by
      rw [hout]; split
      · exact henc (by assumption)
      · rfl
    have hflush : (px_flush cr p).2.px_stream.s =
        { data := store fp.data (blockstart pxh p.curblocknr).toNat out,
          pos := (blockstart pxh p.curblocknr).toNat + out.length,
          ops := fp.ops ++ [FileOp.seek (blockstart pxh p.curblocknr) Whence.SEEK_SET,
            FileOp.write cb.length] } := by
      simp only [px_flush, hh, hd, hstream, file_stream, px_fseek, fseek, px_fwrite, fwrite,
        set_s, hcb, Option.getD_some, if_true]
      simp only [blockstart, blocksize] at hoff2 hout
      rw [show (0x400 : Int) = 1024 from rfl] at hoff2 hout
      simp only [blockstart, blocksize, show (0x400 : Int) = 1024 from rfl, hoff2, if_false,
        hu, zero_add, mul_one, ← hout, List.append_assoc, List.singleton_append]
      rw [List.take_of_length_le (by omega)]
    refine ⟨?_, ?_, ?_, ?_, ?_, ?_⟩
    · simp [px_flush, hh, hd]
    · simp [px_flush, hh, hd]
    · rw [hflush, hbsn]
    · rw [hflush, hbsn, ← hol]; exact store_window _ _ _
    · intro i hi hr
      rw [hflush]
      rcases hr with hr | hr
      · exact store_getElem?_lt _ _ _ _ hi hr
      · exact store_getElem?_ge _ _ _ _ hi (by omega)
    · rw [hflush, hbsn, ← hol]; exact store_length _ _ _
  · intro hd
    simp [px_flush, hh, hd]

set_option maxRecDepth 100000 in
/-- C7 at a document whose block 1 is resident and dirty: the flush stores the
1024 buffer bytes at offset 2048. -/
theorem C7_flush_postcondition_witness :
    doc_resident_dirty.curblockdirty = true ∧
    (px_flush no_crypt doc_resident_dirty).1 = 0 ∧
    (px_flush no_crypt doc_resident_dirty).2.curblockdirty = false ∧
    (px_flush no_crypt doc_resident_dirty).2.px_stream.s.ops =
      [] ++ [FileOp.seek (blockstart hd1 doc_resident_dirty.curblocknr) Whence.SEEK_SET,
        FileOp.write (blocksize hd1).toNat] ∧
    window (px_flush no_crypt doc_resident_dirty).2.px_stream.s.data
        (blockstart hd1 doc_resident_dirty.curblocknr).toNat (blocksize hd1).toNat =
      (if hd1.px_encryption ≠ 0 then
        no_crypt.px_encrypt_db_block (List.replicate 1024 65) hd1.px_encryption
          (blocksize hd1) doc_resident_dirty.curblocknr
       else List.replicate 1024 65) :=
  have h := (C7_flush_postcondition no_crypt doc_resident_dirty hd1 0 0
    { data := List.replicate 3072 0, pos := 0, ops := [] } (List.replicate 1024 65)
    rfl rfl (by decide) (by decide) (by decide) (by decide) rfl
    (by rw [List.length_replicate]; decide) (fun _ => rfl)).1 rfl
  ⟨rfl, h.1, h.2.1, h.2.2.1, h.2.2.2.1⟩
/-- C8 (flush is idempotent), over the file transport: the second of two
flushes returns the document exactly as the first left it (so it issues no
seek and no write), the pair issues at most one `fwrite`, and after a `px_seek`
past the header and a `px_write` that passes the boundary check and has a cache
buffer, a third flush issues exactly one `fwrite`. -/
theorem C8_flush_idempotent (cr : px_crypt) (p : pxdoc_t FILE) (pxh : pxhead_t) (off : Int)
    (len : Nat)
    (buffer : List Byte)
    (hf : p.px_stream.seek = px_fseek ∧ p.px_stream.write = px_fwrite ∧
      p.px_stream.tell = px_ftell) :
    px_flush cr (px_flush cr p).2 = (0, (px_flush cr p).2) ∧
    phys_writes (px_flush cr (px_flush cr p).2).2.px_stream.s.ops
      ≤ phys_writes p.px_stream.s.ops + 1 ∧
    (p.px_head = some pxh → 0 ≤ off → pxh.px_headersize ≤ off →
      ¬ (ulong_add (blockpos pxh off) len > toULong (blocksize pxh)) →
      (p.curblock = none → (p.malloc (toULong (blocksize pxh))).isSome = true) →
      (px_write cr (px_seek (px_flush cr (px_flush cr p).2).2 off Whence.SEEK_SET).2
          len buffer).1 = len ∧
      phys_writes (px_flush cr (px_write cr
          (px_seek (px_flush cr (px_flush cr p).2).2 off Whence.SEEK_SET).2
          len buffer).2).2.px_stream.s.ops =
        phys_writes (px_write cr
          (px_seek (px_flush cr (px_flush cr p).2).2 off Whence.SEEK_SET).2
          len buffer).2.px_stream.s.ops + 1) := by
  have h2 := px_flush_twice cr p
  refine ⟨h2, ?_, ?_⟩
  · rw [h2]
    exact px_flush_writes_le cr p ⟨hf.1, hf.2.1⟩
  · intro hh h0 hpos hb hm
    rw [h2]
    have hs1 := px_flush_stream cr p
    have ha1 := px_flush_alloc cr p
    generalize (px_flush cr p).2 = q1 at hs1 ha1
    have hseek : q1.px_stream.seek = px_fseek := (congrArg pxstream_t.seek hs1.1).trans hf.1
    have hwrite : q1.px_stream.write = px_fwrite :=
      (congrArg pxstream_t.write hs1.1).trans hf.2.1
    have htell : q1.px_stream.tell = px_ftell := (congrArg pxstream_t.tell hs1.1).trans hf.2.2
    have hq : ∀ q, q = (px_seek q1 off Whence.SEEK_SET).2 →
        (px_write cr q len buffer).1 = len ∧
        phys_writes (px_flush cr (px_write cr q len buffer).2).2.px_stream.s.ops =
          phys_writes (px_write cr q len buffer).2.px_stream.s.ops + 1 := by
      intro q hqdef
      have hqh : q.px_head = some pxh := by rw [hqdef]; simp [px_seek, set_s, hs1.2, hh]
      have hqt : px_tell q = off := by
        rw [hqdef]
        have hn : ¬ (off < 0) := by omega
        simp [px_tell, px_seek, set_s, hseek, htell, px_fseek, fseek, px_ftell, ftell, hn]
        omega
      have hqm : q.curblock = none → (q.malloc (toULong (blocksize pxh))).isSome = true := by
        rw [hqdef]
        intro hc
        have hc1 : q1.curblock = none := by simpa [px_seek, set_s] using hc
        have := hm (ha1.2.mp hc1)
        simpa [px_seek, set_s, ha1.1] using this
      have hqs : q.px_stream.seek = px_fseek ∧ q.px_stream.write = px_fwrite := by
        rw [hqdef]; simp [px_seek, set_s, hseek, hwrite]
      have hw := px_write_dirty cr q pxh len buffer hqh (by rw [hqt]; exact hpos)
        (by rw [hqt]; exact hb) hqm
      have hws := px_write_stream cr q len buffer
      refine ⟨hw.1, ?_⟩
      rw [px_flush_ops_dirty cr (px_write cr q len buffer).2 pxh
        ⟨(congrArg pxstream_t.seek hws.1).trans hqs.1,
          (congrArg pxstream_t.write hws.1).trans hqs.2⟩
        (by rw [hws.2]; exact hqh) hw.2, phys_writes_append]
      simp [phys_writes]
    exact hq _ rfl

/-- C8 at a document whose block 1 is resident and dirty, followed by a write
of 4 bytes at 2048 and a third flush. -/
theorem C8_flush_idempotent_witness :
    px_flush no_crypt (px_flush no_crypt doc_resident_dirty).2 =
      (0, (px_flush no_crypt doc_resident_dirty).2) ∧
    phys_writes (px_flush no_crypt (px_flush no_crypt doc_resident_dirty).2).2.px_stream.s.ops
      ≤ phys_writes doc_resident_dirty.px_stream.s.ops + 1 ∧
    (px_write no_crypt
      (px_seek (px_flush no_crypt (px_flush no_crypt doc_resident_dirty).2).2 2048
        Whence.SEEK_SET).2 4 [66, 66, 66, 66]).1 = 4 ∧
    phys_writes (px_flush no_crypt (px_write no_crypt
        (px_seek (px_flush no_crypt (px_flush no_crypt doc_resident_dirty).2).2 2048
          Whence.SEEK_SET).2 4 [66, 66, 66, 66]).2).2.px_stream.s.ops =
      phys_writes (px_write no_crypt
        (px_seek (px_flush no_crypt (px_flush no_crypt doc_resident_dirty).2).2 2048
          Whence.SEEK_SET).2 4 [66, 66, 66, 66]).2.px_stream.s.ops + 1 :=
  have h := C8_flush_idempotent no_crypt doc_resident_dirty hd1 2048 4 [66, 66, 66, 66]
    ⟨rfl, rfl, rfl⟩
  ⟨h.1, h.2.1, h.2.2 rfl (by decide) (by decide) (by decide) (fun hc => by cases hc)⟩

set_option maxRecDepth 100000 in
/-- C9 (no dirty block is lost on a block switch), evaluated on the read path:
with block 1 resident and dirty, holding "AAAA", a successful `px_read` of
block 2 issues no `fwrite`, so the file still holds zeros for block 1, and a
later read of block 1 returns 4 and delivers four zero bytes. -/
theorem C9_read_switch_drops_dirty_block :
    doc_dirty_block1.curblocknr = 1 ∧ doc_dirty_block1.curblockdirty = true ∧
    doc_dirty_block1.curblock.map (fun b => window b 0 4) = some [65, 65, 65, 65] ∧
    blocknr hd1 (px_tell doc_dirty_block1) = 2 ∧
    (px_read no_crypt doc_dirty_block1 4 [7, 7, 7, 7]).1 = 4 ∧
    (px_read no_crypt doc_dirty_block1 4 [7, 7, 7, 7]).2.2.curblocknr = 2 ∧
    phys_writes (px_read no_crypt doc_dirty_block1 4 [7, 7, 7, 7]).2.2.px_stream.s.ops = 0 ∧
    window (px_read no_crypt doc_dirty_block1 4 [7, 7, 7, 7]).2.2.px_stream.s.data 2048 4
      = [0, 0, 0, 0] ∧
    run_read_switch.1 = 4 ∧ run_read_switch.2.1 = [0, 0, 0, 0] := by
  decide

/-- C10 (header-region accesses bypass the cache): when no header is present
or the position reported by tell is before the header size, `px_read` and
`px_write` return what the stream binding returns for the same `len` and
buffer, the only change to the document is the transport handle that binding
returns, and cache buffer, resident block number and dirty flag are the same,
whatever `len` is. -/
theorem C10_header_region_bypass {σ : Type} (cr : px_crypt) (p : pxdoc_t σ) (len : Nat)
    (buffer : List Byte)
    (h : p.px_head = none ∨
      ∃ pxh, p.px_head = some pxh ∧ p.px_stream.tell p.px_stream.s < pxh.px_headersize) :
    (px_read cr p len buffer =
        ((p.px_stream.read p.px_stream.s len buffer).2.1,
         (p.px_stream.read p.px_stream.s len buffer).2.2,
         set_s p (p.px_stream.read p.px_stream.s len buffer).1) ∧
     px_write cr p len buffer =
        ((p.px_stream.write p.px_stream.s len buffer).2,
         set_s p (p.px_stream.write p.px_stream.s len buffer).1)) ∧
    ((px_read cr p len buffer).2.2.curblock = p.curblock ∧
     (px_read cr p len buffer).2.2.curblocknr = p.curblocknr ∧
     (px_read cr p len buffer).2.2.curblockdirty = p.curblockdirty) ∧
    ((px_write cr p len buffer).2.curblock = p.curblock ∧
     (px_write cr p len buffer).2.curblocknr = p.curblocknr ∧
     (px_write cr p len buffer).2.curblockdirty = p.curblockdirty) := by
  have key : px_read cr p len buffer =
        ((p.px_stream.read p.px_stream.s len buffer).2.1,
         (p.px_stream.read p.px_stream.s len buffer).2.2,
         set_s p (p.px_stream.read p.px_stream.s len buffer).1) ∧
     px_write cr p len buffer =
        ((p.px_stream.write p.px_stream.s len buffer).2,
         set_s p (p.px_stream.write p.px_stream.s len buffer).1) := by
    rcases h with h | ⟨pxh, hh, hlt⟩
    · simp [px_read, px_write, h]
    · have hn : ¬ (pxh.px_headersize ≤ p.px_stream.tell p.px_stream.s) := not_le.mpr hlt
      simp [px_read, px_write, hh, hn]
  refine ⟨key, ?_, ?_⟩
  · rw [key.1]; exact ⟨rfl, rfl, rfl⟩
  · rw [key.2]; exact ⟨rfl, rfl, rfl⟩

/-- C10 at a freshly opened document (position 0, header size 2048), `len = 4`:
both calls return the 1 that the file transport returns. -/
theorem C10_header_region_bypass_witness :
    px_tell (open_doc hd1 (List.replicate 3072 5)) < hd1.px_headersize ∧
    (px_read no_crypt (open_doc hd1 (List.replicate 3072 5)) 4 [7, 7, 7, 7]).1 =
      (px_fread { data := List.replicate 3072 5, pos := 0, ops := [] } 4 [7, 7, 7, 7]).2.1 ∧
    (px_write no_crypt (open_doc hd1 (List.replicate 3072 5)) 4 [7, 7, 7, 7]).1 =
      (px_fwrite { data := List.replicate 3072 5, pos := 0, ops := [] } 4 [7, 7, 7, 7]).2 ∧
    (px_read no_crypt (open_doc hd1 (List.replicate 3072 5)) 4 [7, 7, 7, 7]).2.2.curblock =
      none :=
  have h := C10_header_region_bypass no_crypt (open_doc hd1 (List.replicate 3072 5)) 4
    [7, 7, 7, 7] (Or.inr ⟨hd1, rfl, by decide⟩)
  ⟨by decide, congrArg Prod.fst h.1.1, congrArg Prod.fst h.1.2, h.2.1.1⟩

/-! ## The claims, continued -/

set_option maxRecDepth 100000 in
/-- C11 (transport failures of the main block cache reach the caller),
evaluated over a file that ends inside block 1 and over a transport on which
every call fails.  The block load of `px_read` gets a short read (the
transport returns 0), yet `px_read` returns `len = 4` and records block 1 as
resident; over the failing transport `px_read` and `px_write` return `len` and
`px_flush` returns 0 and clears the dirty flag. -/
theorem C11_transport_failure_is_dropped :
    (px_fread (px_fseek doc_short_file.px_stream.s 2048 Whence.SEEK_SET).1 1024
      (List.replicate 1024 0)).2.1 = 0 ∧
    (px_read no_crypt doc_short_file 4 [7, 7, 7, 7]).1 = 4 ∧
    (px_read no_crypt doc_short_file 4 [7, 7, 7, 7]).2.2.curblocknr = 1 ∧
    (failing_stream.seek () 2048 Whence.SEEK_SET).2 = -1 ∧
    (failing_stream.read () 1024 []).2.1 = 0 ∧
    (failing_stream.write () 1024 []).2 = 0 ∧
    (px_read no_crypt doc_failing 4 [7, 7, 7, 7]).1 = 4 ∧
    (px_read no_crypt doc_failing 4 [7, 7, 7, 7]).2.2.curblocknr = 1 ∧
    (px_write no_crypt doc_failing_dirty 4 [7, 7, 7, 7]).1 = 4 ∧
    (px_write no_crypt doc_failing_dirty 4 [7, 7, 7, 7]).2.curblocknr = 1 ∧
    (px_flush no_crypt doc_failing_dirty).1 = 0 ∧
    (px_flush no_crypt doc_failing_dirty).2.curblockdirty = false := by
  decide

/-! ## The blob read over the file transport -/

theorem toInt32_div_self (n : Nat) : ¬ (toInt32 (n / n) < 0) := by
  have h : n / n = 0 ∨ n / n = 1 := by
    rcases Nat.eq_zero_or_pos n with h | h
    · left; rw [h]
    · right; exact Nat.div_self h
  rcases h with h | h <;> rw [h] <;> decide

/-- The encrypted path of `px_mb_read` over the file transport, when the
assertions hold, the page range is stored in the file and the scratch buffer
is allocated: the call returns `len`, delivers the slice of the decrypted page
range and leaves the position at `pos + len`. -/
theorem px_mb_read_file {σ : Type} (mcr : px_mb_crypt) (libc_malloc : Nat → Option (List Byte))
    (p : pxblob_t σ FILE) (pxh : pxhead_t) (m c : Int) (fp : FILE) (len : Nat)
    (buffer tmpbuf : List Byte)
    (hstream : p.mb_stream = file_stream m c fp)
    (hh : p.pxdoc.px_head = some pxh) (henc : pxh.px_encryption ≠ 0)
    (hend : (fp.pos : Int) + len < 2 ^ 63)
    (hassert : mb_asserts fp.pos len = true)
    (hmalloc : libc_malloc (mb_blockslen len) = some tmpbuf)
    (htmp : tmpbuf.length = mb_blockslen len)
    (hfile : mb_blockoffset fp.pos + mb_blockslen len ≤ fp.data.length) :
    px_mb_read mcr libc_malloc p len buffer =
      some (len,
        window
          (mcr.px_decrypt_mb_block
            (window fp.data (mb_blockoffset fp.pos) (mb_blockslen len))
            pxh.px_encryption (mb_blockslen len))
          ((fp.pos : Int) - (mb_blockoffset fp.pos : Int)).toNat len ++ buffer.drop len,
        set_mb_s p
          { data := fp.data, pos := fp.pos + len,
            ops := fp.ops ++
              [FileOp.seek (mb_blockoffset fp.pos : Int) Whence.SEEK_SET,
               FileOp.read (mb_blockslen len),
               FileOp.seek ((fp.pos : Int) + len) Whence.SEEK_SET] }) := by
  have hseekto : toLong (ulong_add (fp.pos : Int) len) = (fp.pos : Int) + len :=
    toLong_ulong_add _ _ (by omega) hend
  have hload := file_load fp (mb_blockoffset fp.pos : Int) (mb_blockslen len) tmpbuf
    (by omega) (by simpa using hfile) htmp
  have hn0 : ¬ ((fp.pos : Int) < 0) := by omega
  have hna : ¬ (mb_asserts fp.pos len = false) := by rw [hassert]; decide
  have hn1 : ¬ ((mb_blockoffset fp.pos : Int) < 0) := by omega
  have hn3 : ¬ ((fp.pos : Int) + len < 0) := by omega
  unfold px_mb_read
  simp only [hh, henc, hstream, file_stream, px_ftell, ftell, hn0, hna, if_false]
  have hs1 : (px_fseek fp (mb_blockoffset fp.pos : Int) Whence.SEEK_SET).2 = 0 := by
    simp [px_fseek, fseek, hn1]
  rw [hs1]
  simp only [lt_self_iff_false, if_false, hmalloc, hload, toInt32_div_self, hseekto]
  have hs3 : ∀ f : FILE, (px_fseek f ((fp.pos : Int) + len) Whence.SEEK_SET) =
      ({ data := f.data, pos := fp.pos + len,
         ops := f.ops ++ [FileOp.seek ((fp.pos : Int) + len) Whence.SEEK_SET] }, 0) := by
    intro f
    simp only [px_fseek, fseek, zero_add, hn3, if_false]
    congr 2
  rw [hs3]
  simp only [lt_self_iff_false, if_false, memcpy_front, set_mb_s, List.append_assoc,
    List.cons_append, List.nil_append]
  simp [Int.toNat_ofNat]

/-- The blob stream after `run_mb_write` and the seek back to 5, spelled out. -/
theorem run_mb_write_stream :
    (px_mb_seek run_mb_write.2 5 Whence.SEEK_SET).2.mb_stream = file_stream 0 0
    { data := store (List.replicate 4096 (0 : Byte)) 5 [65, 65, 65, 65], pos := 5,
      ops := [FileOp.seek 5 Whence.SEEK_SET, FileOp.write 4, FileOp.seek 5 Whence.SEEK_SET] } := by
  have h1 : ¬ ((0 : Int) + 5 < 0) := by decide
  have h2 : ((0 : Int) + 5).toNat = 5 := rfl
  have h3 : List.take (4 * 1) ([65, 65, 65, 65] : List Byte) = [65, 65, 65, 65] := rfl
  simp only [run_mb_write, px_mb_write, px_mb_seek, open_blob, file_stream, set_mb_s, px_fseek,
    fseek, px_fwrite, fwrite, h1, if_false, h2, h3, List.nil_append, List.append_assoc,
    List.cons_append, Nat.mul_one]

set_option maxRecDepth 100000 in
/-- C12 (blob write then read round trip), evaluated with encryption enabled
and a decryption that inverts the encryption: `px_mb_write` of "AAAA" at offset
5 stores the bytes as they are, and the `px_mb_read` of the same range returns
4, decrypts the page and delivers `[64, 64, 64, 64]` instead of "AAAA". -/
theorem C12_blob_write_is_not_read_back :
    shift_mb_crypt.px_decrypt_mb_block
      (shift_mb_crypt.px_encrypt_mb_block [65, 65, 65, 65] 1 4) 1 4 = [65, 65, 65, 65] ∧
    window run_mb_write.2.mb_stream.s.data 5 4 = [65, 65, 65, 65] ∧
    run_mb_write_read.map (fun r => r.1) = some 4 ∧
    run_mb_write_read.map (fun r => r.2.1) = some [64, 64, 64, 64] ∧
    run_mb_write_read.map (fun r => r.2.1) ≠ some [65, 65, 65, 65] := by
  have hlen : mb_blockoffset ((5 : Nat) : Int) + mb_blockslen 4
      ≤ (store (List.replicate 4096 (0 : Byte)) 5 [65, 65, 65, 65]).length := by
    rw [store_length, List.length_replicate]; decide
  have h := px_mb_read_file shift_mb_crypt zero_malloc
    (px_mb_seek run_mb_write.2 5 Whence.SEEK_SET).2 hd_enc 0 0
    { data := store (List.replicate 4096 (0 : Byte)) 5 [65, 65, 65, 65], pos := 5,
      ops := [FileOp.seek 5 Whence.SEEK_SET, FileOp.write 4, FileOp.seek 5 Whence.SEEK_SET] }
    4 [7, 7, 7, 7] (List.replicate 4096 0) run_mb_write_stream rfl (by decide) (by decide)
    (by decide) rfl
    (by rw [List.length_replicate]; decide) hlen
  have hrun : run_mb_write_read = px_mb_read shift_mb_crypt zero_malloc
    (px_mb_seek run_mb_write.2 5 Whence.SEEK_SET).2 4 [7, 7, 7, 7] := rfl
  rw [hrun, h]
  decide

set_option maxRecDepth 100000 in
/-- C13 (blob write is a page-granular read-modify-write), evaluated with
encryption enabled over a page of zero bytes: the only transport calls of
`px_mb_write` are the ones of the stream write, the page afterwards holds the
caller bytes unencrypted at `[5, 9)`, where the read-modify-write of the claim
would store `[66, 66, 66, 66]`, and the call returns the 1 of the file
transport instead of `len = 4`. -/
theorem C13_blob_write_stores_plain_bytes :
    run_mb_write.2.mb_stream.s.ops = [FileOp.seek 5 Whence.SEEK_SET, FileOp.write 4] ∧
    window run_mb_write.2.mb_stream.s.data 5 4 = [65, 65, 65, 65] ∧
    window
      (shift_mb_crypt.px_encrypt_mb_block
        (memcpy (shift_mb_crypt.px_decrypt_mb_block (List.replicate 4096 0) 1 4096) 5
          [65, 65, 65, 65] 0 4) 1 4096) 5 4 = [66, 66, 66, 66] ∧
    run_mb_write.1 = 1 := by
  decide

set_option maxRecDepth 100000 in
/-- C14 (the blob read's page range covers the request), evaluated at
`pos = 4090`, `len = 10`: `blockoffset = 0` and `blockslen = 4096`, so the
range `[0, 4096)` does not contain `[4090, 4100)`, the third assertion
`(blockoffset+blockslen) >= (pos+len)` is false and `px_mb_read` does not
return. -/
theorem C14_page_range_misses_request :
    px_mb_tell blob_at_4090 = 4090 ∧
    mb_blockoffset 4090 = 0 ∧ mb_blockslen 10 = 4096 ∧
    ¬ ((mb_blockoffset 4090 + mb_blockslen 10) % 2 ^ 32 ≥ ulong_add 4090 10) ∧
    mb_asserts 4090 10 = false ∧
    px_mb_read shift_mb_crypt zero_malloc blob_at_4090 10 (List.replicate 10 7) = none := by
  refine ⟨by decide, by decide, by decide, by decide, by decide, ?_⟩
  rfl

/-- C15 (blob sub-step failures abort and propagate): in `px_mb_read` with
encryption enabled, a negative result `c` of `tell`, of the seek to the page
start, of the page read (as the `int` the code stores it in) or of the final
seek is returned converted to `size_t`, the transport handle afterwards is the
one the failing call left (no further transport call), and in the first three
cases the caller buffer is the same; `px_mb_write` returns what its one
transport call, the stream write, returns. -/
theorem C15_blob_failures_propagate {σ τ : Type} (mcr : px_mb_crypt)
    (libc_malloc : Nat → Option (List Byte)) (p : pxblob_t σ τ) (pxh : pxhead_t) (len : Nat)
    (buffer : List Byte) (hh : p.pxdoc.px_head = some pxh) (henc : pxh.px_encryption ≠ 0) :
    (px_mb_tell p < 0 →
      px_mb_read mcr libc_malloc p len buffer = some (toULong (px_mb_tell p), buffer, p)) ∧
    (0 ≤ px_mb_tell p → mb_asserts (px_mb_tell p) len = true →
      (p.mb_stream.seek p.mb_stream.s (mb_blockoffset (px_mb_tell p) : Int)
        Whence.SEEK_SET).2 < 0 →
      px_mb_read mcr libc_malloc p len buffer =
        some (toULong (p.mb_stream.seek p.mb_stream.s (mb_blockoffset (px_mb_tell p) : Int)
            Whence.SEEK_SET).2, buffer,
          set_mb_s p (p.mb_stream.seek p.mb_stream.s (mb_blockoffset (px_mb_tell p) : Int)
            Whence.SEEK_SET).1)) ∧
    (0 ≤ px_mb_tell p → mb_asserts (px_mb_tell p) len = true →
      0 ≤ (p.mb_stream.seek p.mb_stream.s (mb_blockoffset (px_mb_tell p) : Int)
        Whence.SEEK_SET).2 →
      ∀ tmpbuf, libc_malloc (mb_blockslen len) = some tmpbuf →
      toInt32 (p.mb_stream.read
        (p.mb_stream.seek p.mb_stream.s (mb_blockoffset (px_mb_tell p) : Int)
          Whence.SEEK_SET).1 (mb_blockslen len) tmpbuf).2.1 < 0 →
      px_mb_read mcr libc_malloc p len buffer =
        some (toULong (toInt32 (p.mb_stream.read
            (p.mb_stream.seek p.mb_stream.s (mb_blockoffset (px_mb_tell p) : Int)
              Whence.SEEK_SET).1 (mb_blockslen len) tmpbuf).2.1), buffer,
          set_mb_s p (p.mb_stream.read
            (p.mb_stream.seek p.mb_stream.s (mb_blockoffset (px_mb_tell p) : Int)
              Whence.SEEK_SET).1 (mb_blockslen len) tmpbuf).1)) ∧
    (0 ≤ px_mb_tell p → mb_asserts (px_mb_tell p) len = true →
      0 ≤ (p.mb_stream.seek p.mb_stream.s (mb_blockoffset (px_mb_tell p) : Int)
        Whence.SEEK_SET).2 →
      ∀ tmpbuf, libc_malloc (mb_blockslen len) = some tmpbuf →
      0 ≤ toInt32 (p.mb_stream.read
        (p.mb_stream.seek p.mb_stream.s (mb_blockoffset (px_mb_tell p) : Int)
          Whence.SEEK_SET).1 (mb_blockslen len) tmpbuf).2.1 →
      (p.mb_stream.seek
        (p.mb_stream.read
          (p.mb_stream.seek p.mb_stream.s (mb_blockoffset (px_mb_tell p) : Int)
            Whence.SEEK_SET).1 (mb_blockslen len) tmpbuf).1
        (toLong (ulong_add (px_mb_tell p) len)) Whence.SEEK_SET).2 < 0 →
      px_mb_read mcr libc_malloc p len buffer =
        some (toULong (p.mb_stream.seek
            (p.mb_stream.read
              (p.mb_stream.seek p.mb_stream.s (mb_blockoffset (px_mb_tell p) : Int)
                Whence.SEEK_SET).1 (mb_blockslen len) tmpbuf).1
            (toLong (ulong_add (px_mb_tell p) len)) Whence.SEEK_SET).2,
          memcpy buffer 0
            (mcr.px_decrypt_mb_block
              (p.mb_stream.read
                (p.mb_stream.seek p.mb_stream.s (mb_blockoffset (px_mb_tell p) : Int)
                  Whence.SEEK_SET).1 (mb_blockslen len) tmpbuf).2.2
              pxh.px_encryption (mb_blockslen len))
            (px_mb_tell p - (mb_blockoffset (px_mb_tell p) : Int)).toNat len,
          set_mb_s p (p.mb_stream.seek
            (p.mb_stream.read
              (p.mb_stream.seek p.mb_stream.s (mb_blockoffset (px_mb_tell p) : Int)
                Whence.SEEK_SET).1 (mb_blockslen len) tmpbuf).1
            (toLong (ulong_add (px_mb_tell p) len)) Whence.SEEK_SET).1)) ∧
    px_mb_write p len buffer =
      ((p.mb_stream.write p.mb_stream.s len buffer).2,
       set_mb_s p (p.mb_stream.write p.mb_stream.s len buffer).1) := by
  simp only [px_mb_tell]
  refine ⟨?_, ?_, ?_, ?_, rfl⟩
  · intro ht
    simp [px_mb_read, hh, henc, ht]
  · intro ht ha hs
    have ht' : ¬ (p.mb_stream.tell p.mb_stream.s < 0) := not_lt.mpr ht
    simp [px_mb_read, hh, henc, ht', ha, hs]
  · intro ht ha hs tmpbuf hm hr
    have ht' : ¬ (p.mb_stream.tell p.mb_stream.s < 0) := not_lt.mpr ht
    have hs' : ¬ ((p.mb_stream.seek p.mb_stream.s
        (mb_blockoffset (p.mb_stream.tell p.mb_stream.s) : Int) Whence.SEEK_SET).2 < 0) :=
      not_lt.mpr hs
    simp [px_mb_read, hh, henc, ht', ha, hs', hm, hr]
  · intro ht ha hs tmpbuf hm hr h3
    have ht' : ¬ (p.mb_stream.tell p.mb_stream.s < 0) := not_lt.mpr ht
    have hs' : ¬ ((p.mb_stream.seek p.mb_stream.s
        (mb_blockoffset (p.mb_stream.tell p.mb_stream.s) : Int) Whence.SEEK_SET).2 < 0) :=
      not_lt.mpr hs
    have hr' : ¬ (toInt32 (p.mb_stream.read
        (p.mb_stream.seek p.mb_stream.s (mb_blockoffset (p.mb_stream.tell p.mb_stream.s) : Int)
          Whence.SEEK_SET).1 (mb_blockslen len) tmpbuf).2.1 < 0) := not_lt.mpr hr
    simp [px_mb_read, hh, henc, ht', ha, hs', hm, hr', h3]

/-- C15 at a blob whose transport fails `tell` with -1: `px_mb_read` returns -1
converted to `size_t`, and the caller buffer and the blob are the same. -/
theorem C15_blob_failures_propagate_witness :
    px_mb_tell blob_tell_failing < 0 ∧
    px_mb_read shift_mb_crypt zero_malloc blob_tell_failing 4 [7, 7, 7, 7] =
      some (toULong (px_mb_tell blob_tell_failing), [7, 7, 7, 7], blob_tell_failing) :=
  ⟨by decide,
   (C15_blob_failures_propagate shift_mb_crypt zero_malloc blob_tell_failing hd_enc 4
     [7, 7, 7, 7] rfl (by decide)).1 (by decide)⟩

/-- C16 (stream factory postcondition): `px_stream_new_file` and
`px_stream_new_gsf` return no stream exactly when the document is absent or
the allocation of the record fails, in both cases after exactly one report to
the error collaborator; a returned stream has the kind of its constructor,
the given mode, close flag and handle, and the four bindings of that kind. -/
theorem C16_stream_factory_postcondition {σ γ : Type} (lib : gsf_lib γ)
    (pxdoc : Option (pxdoc_t σ)) (mode close : Int) (fp : FILE) (gsf : γ) :
    (((px_stream_new_file pxdoc mode close fp).pxs = none ↔
        (pxdoc = none ∨ ∃ p, pxdoc = some p ∧ p.malloc sizeof_pxstream_t = none)) ∧
     ((px_stream_new_file pxdoc mode close fp).pxs = none →
        (px_stream_new_file pxdoc mode close fp).reports.length = 1) ∧
     (∀ pxs, (px_stream_new_file pxdoc mode close fp).pxs = some pxs →
        pxs.type = pxfIOKind.pxfIOFile ∧ pxs.mode = mode ∧ pxs.close = close ∧ pxs.s = fp ∧
        pxs.read = px_fread ∧ pxs.seek = px_fseek ∧ pxs.tell = px_ftell ∧
        pxs.write = px_fwrite)) ∧
    (((px_stream_new_gsf lib pxdoc mode close gsf).pxs = none ↔
        (pxdoc = none ∨ ∃ p, pxdoc = some p ∧ p.malloc sizeof_pxstream_t = none)) ∧
     ((px_stream_new_gsf lib pxdoc mode close gsf).pxs = none →
        (px_stream_new_gsf lib pxdoc mode close gsf).reports.length = 1) ∧
     (∀ pxs, (px_stream_new_gsf lib pxdoc mode close gsf).pxs = some pxs →
        pxs.type = pxfIOKind.pxfIOGsf ∧ pxs.mode = mode ∧ pxs.close = close ∧ pxs.s = gsf ∧
        pxs.read = px_gsfread lib ∧ pxs.seek = px_gsfseek lib ∧ pxs.tell = px_gsftell lib ∧
        pxs.write = px_gsfwrite lib)) := by
  cases pxdoc with
  | none =>
    simp [px_stream_new_file, px_stream_new_gsf, px_stream_new]
  | some p =>
    cases hm : p.malloc sizeof_pxstream_t with
    | none => simp [px_stream_new_file, px_stream_new_gsf, px_stream_new, hm]
    | some b =>
      simp only [px_stream_new_file, px_stream_new_gsf, px_stream_new, hm]
      refine ⟨⟨?_, ?_, ?_⟩, ⟨?_, ?_, ?_⟩⟩
      · simp [hm]
      · simp
      · intro pxs h
        cases h
        exact ⟨rfl, rfl, rfl, rfl, rfl, rfl, rfl, rfl⟩
      · simp [hm]
      · simp
      · intro pxs h
        cases h
        exact ⟨rfl, rfl, rfl, rfl, rfl, rfl, rfl, rfl⟩

/-! ## The block switch of `px_write` -/

theorem px_write_switch {σ : Type} (cr : px_crypt) (p : pxdoc_t σ) (pxh : pxhead_t) (len : Nat)
    (buffer cb : List Byte) (hh : p.px_head = some pxh)
    (hpos : pxh.px_headersize ≤ px_tell p)
    (hb : ¬ (ulong_add (blockpos pxh (px_tell p)) len > toULong (blocksize pxh)))
    (hc : p.curblock = some cb)
    (hnr : p.curblocknr ≠ blocknr pxh (px_tell p)) (hn0 : p.curblocknr ≠ 0) :
    px_write cr p len buffer =
      (len,
       set_s { p with
           curblockdirty := true,
           curblocknr := blocknr pxh (px_tell p),
           curblock := some
             (memcpy
               (memset
                 (if pxh.px_encryption ≠ 0 then
                    cr.px_encrypt_db_block cb pxh.px_encryption (blocksize pxh) p.curblocknr
                  else cb) 0 (toULong (blocksize pxh)))
               (blockpos pxh (px_tell p)).toNat buffer 0 len) }
         (p.px_stream.seek
           (p.px_stream.write
             (p.px_stream.seek p.px_stream.s (blockstart pxh p.curblocknr) Whence.SEEK_SET).1
             (toULong (blocksize pxh))
             (if pxh.px_encryption ≠ 0 then
                cr.px_encrypt_db_block cb pxh.px_encryption (blocksize pxh) p.curblocknr
              else cb)).1
           (toLong (ulong_add (px_tell p) len)) Whence.SEEK_SET).1) := by
  simp only [px_tell, blockpos, blocksize, blocknr, blockstart] at hpos hb hnr ⊢
  unfold px_write
  simp only [hh, hpos, hb, if_true, if_false, ge_iff_le]
  simp [hc, hnr, hn0, set_s]

theorem memcpy_into_zeros (cb1 buffer : List Byte) (n k len : Nat) (hcb : cb1.length = n)
    (hk : k + len ≤ n) (hbuf : buffer.length = len) :
    memcpy (memset cb1 0 n) k buffer 0 len =
      List.replicate k 0 ++ (buffer ++ List.replicate (n - (k + len)) 0) := by
  have hz : memset cb1 0 n = List.replicate n 0 := by
    simp only [memset]
    rw [List.drop_of_length_le (by omega), List.append_nil]
  rw [hz]
  simp only [memcpy, List.drop_zero, List.take_replicate, List.drop_replicate]
  rw [Nat.min_eq_left (by omega), List.take_of_length_le (by omega)]

/-- C17 (postcondition of a write that switches blocks), over the file
transport: with block `R >= 1` resident in a buffer of `blocksize` bytes,
`R` different from the target block, and `blockoffset + len <= blocksize`,
`px_write` returns `len`; the file afterwards holds the former buffer
(encrypted with index `R` when encryption is enabled) in the `blocksize`
bytes at `headersize + (R-1)*blocksize` and every other byte it held before is
the same; the cache buffer is zero except for `d` at
`[blockoffset, blockoffset+len)`; the target block is resident, the dirty flag
is set and the position is `curpos + len`. -/
theorem C17_write_switch_postcondition (cr : px_crypt) (p : pxdoc_t FILE) (pxh : pxhead_t)
    (m c : Int) (fp : FILE) (len : Nat) (buffer cb : List Byte)
    (hstream : p.px_stream = file_stream m c fp)
    (hh : p.px_head = some pxh)
    (hhs : 0 ≤ pxh.px_headersize)
    (hbs : 0 < blocksize pxh) (hbs63 : blocksize pxh < 2 ^ 63)
    (hpos : pxh.px_headersize ≤ (fp.pos : Int))
    (hfit : blockpos pxh fp.pos + len ≤ blocksize pxh)
    (hend : (fp.pos : Int) + len < 2 ^ 63)
    (hR : 1 ≤ p.curblocknr) (hne : p.curblocknr ≠ blocknr pxh fp.pos)
    (hcb : p.curblock = some cb) (hlen : (cb.length : Int) = blocksize pxh)
    (henc : pxh.px_encryption ≠ 0 →
      (cr.px_encrypt_db_block cb pxh.px_encryption (blocksize pxh) p.curblocknr).length
        = cb.length)
    (hd : buffer.length = len) :
    (px_write cr p len buffer).1 = len ∧
    (px_write cr p len buffer).2.curblocknr = blocknr pxh fp.pos ∧
    (px_write cr p len buffer).2.curblockdirty = true ∧
    px_tell (px_write cr p len buffer).2 = fp.pos + len ∧
    (px_write cr p len buffer).2.curblock =
      some (List.replicate (blockpos pxh fp.pos).toNat 0 ++
        (buffer ++ List.replicate
          ((blocksize pxh).toNat - ((blockpos pxh fp.pos).toNat + len)) 0)) ∧
    window (px_write cr p len buffer).2.px_stream.s.data (blockstart pxh p.curblocknr).toNat
        (blocksize pxh).toNat =
      (if pxh.px_encryption ≠ 0 then
        cr.px_encrypt_db_block cb pxh.px_encryption (blocksize pxh) p.curblocknr
       else cb) ∧
    (∀ i : Nat, i < fp.data.length →
      (i < (blockstart pxh p.curblocknr).toNat ∨
        (blockstart pxh p.curblocknr).toNat + (blocksize pxh).toNat ≤ i) →
      (px_write cr p len buffer).2.px_stream.s.data[i]? = fp.data[i]?) ∧
    (px_write cr p len buffer).2.px_stream.s.ops = fp.ops ++
      [FileOp.seek (blockstart pxh p.curblocknr) Whence.SEEK_SET,
       FileOp.write (blocksize pxh).toNat,
       FileOp.seek (fp.pos + len) Whence.SEEK_SET] := by
  obtain ⟨hnr1, hbp0, hbplt, haddr⟩ := block_addressing pxh fp.pos hbs hpos
  have htell : px_tell p = fp.pos := by simp [px_tell, hstream, file_stream, px_ftell, ftell]
  have hu : toULong (blocksize pxh) = (blocksize pxh).toNat :=
    toULong_of_range _ (le_of_lt hbs) (by omega)
  have hguard : ¬ (ulong_add (blockpos pxh (px_tell p)) len > toULong (blocksize pxh)) := by
    rw [htell, hu, ulong_add_of_range _ _ hbp0 (by omega)]
    omega
  have hseekto : toLong (ulong_add (px_tell p) len) = fp.pos + len := by
    rw [htell]; exact toLong_ulong_add _ _ (by omega) hend
  have hpos' : pxh.px_headersize ≤ px_tell p := by rw [htell]; exact hpos
  have hstart0 : 0 ≤ blockstart pxh p.curblocknr := by
    unfold blockstart
    have : 0 ≤ (p.curblocknr - 1) * blocksize pxh := mul_nonneg (by omega) (le_of_lt hbs)
    omega
  have hn1 : ¬ ((fp.pos : Int) + len < 0) := by omega
  have hn2 : ¬ (blockstart pxh p.curblocknr < 0) := by omega
  have hbsn : (blocksize pxh).toNat = cb.length := by omega
  set out := (if pxh.px_encryption ≠ 0 then
      cr.px_encrypt_db_block cb pxh.px_encryption (blocksize pxh) p.curblocknr
    else cb) with hout
  have hol : out.length = cb.length := by
    rw [hout]; split
    · exact henc (by assumption)
    · rfl
  have hw := px_write_switch cr p pxh len buffer cb hh hpos' hguard hcb
    (by rw [htell]; exact hne) (by omega)
  rw [hseekto, htell, hu, ← hout] at hw
  have hfile : (p.px_stream.seek
      (p.px_stream.write
        (p.px_stream.seek p.px_stream.s (blockstart pxh p.curblocknr) Whence.SEEK_SET).1
        (blocksize pxh).toNat out).1
      ((fp.pos : Int) + len) Whence.SEEK_SET).1 =
      { data := store fp.data (blockstart pxh p.curblocknr).toNat out,
        pos := fp.pos + len,
        ops := fp.ops ++ [FileOp.seek (blockstart pxh p.curblocknr) Whence.SEEK_SET,
          FileOp.write (blocksize pxh).toNat,
          FileOp.seek ((fp.pos : Int) + len) Whence.SEEK_SET] } := by
    simp only [hstream, file_stream, px_fseek, fseek, px_fwrite, fwrite, zero_add, hn1, hn2,
      if_false, mul_one, List.append_assoc, List.singleton_append, List.cons_append,
      List.nil_append]
    rw [List.take_of_length_le (by omega)]
    congr 1
  rw [hfile] at hw
  rw [hw]
  refine ⟨rfl, rfl, rfl, ?_, ?_, ?_, ?_, ?_⟩
  · simp [px_tell, set_s, hstream, file_stream, px_ftell, ftell]
  · simp only [set_s]
    rw [memcpy_into_zeros out buffer (blocksize pxh).toNat (blockpos pxh fp.pos).toNat len
      (by omega) (by omega) hd]
  · simp only [set_s]
    rw [hbsn, ← hol]; exact store_window _ _ _
  · intro i hi hr
    simp only [set_s]
    rcases hr with hr | hr
    · exact store_getElem?_lt _ _ _ _ hi hr
    · exact store_getElem?_ge _ _ _ _ hi (by omega)
  · simp [set_s]

set_option maxRecDepth 100000 in
/-- C17 at a document whose block 1 is resident, positioned at the start of
block 2, with a write of "BBBB": block 1 is stored at 2048 and the cache buffer
becomes "BBBB" followed by 1020 zero bytes. -/
theorem C17_write_switch_postcondition_witness :
    doc_block1_at_block2.curblocknr ≠ blocknr hd1 3072 ∧
    (px_write no_crypt doc_block1_at_block2 4 [66, 66, 66, 66]).1 = 4 ∧
    (px_write no_crypt doc_block1_at_block2 4 [66, 66, 66, 66]).2.curblocknr
      = blocknr hd1 3072 ∧
    (px_write no_crypt doc_block1_at_block2 4 [66, 66, 66, 66]).2.curblockdirty = true ∧
    px_tell (px_write no_crypt doc_block1_at_block2 4 [66, 66, 66, 66]).2 = 3072 + 4 ∧
    (px_write no_crypt doc_block1_at_block2 4 [66, 66, 66, 66]).2.curblock =
      some (List.replicate (blockpos hd1 3072).toNat 0 ++
        ([66, 66, 66, 66] ++ List.replicate
          ((blocksize hd1).toNat - ((blockpos hd1 3072).toNat + 4)) 0)) :=
  have h := C17_write_switch_postcondition no_crypt doc_block1_at_block2 hd1 0 0
    { data := List.replicate 3072 0, pos := 3072, ops := [] } 4 [66, 66, 66, 66]
    (List.replicate 1024 65) rfl rfl (by decide) (by decide) (by decide) (by decide)
    (by decide) (by decide) (by decide) (by decide) rfl
    (by rw [List.length_replicate]; decide) (fun _ => rfl) rfl
  ⟨by decide, h.1, h.2.1, h.2.2.1, h.2.2.2.1, h.2.2.2.2.1⟩

set_option maxRecDepth 100000 in
/-- C18 (flush does not change what the cache serves), evaluated with
encryption enabled: before the flush the cache-hit read of `[0, 4)` of the
resident dirty block 1 delivers "AAAA"; `px_flush` encrypts the cache buffer in
place and leaves block 1 resident, so the same read after the flush delivers the
ciphertext `[66, 66, 66, 66]`, while the file stores that ciphertext and its
decryption is "AAAA". -/
theorem C18_flush_leaves_ciphertext_in_cache :
    (px_read shift_crypt doc_enc_dirty 4 [7, 7, 7, 7]).2.1 = [65, 65, 65, 65] ∧
    (px_flush shift_crypt doc_enc_dirty).2.curblocknr = 1 ∧
    (px_flush shift_crypt doc_enc_dirty).2.curblock.map (fun b => window b 0 4)
      = some [66, 66, 66, 66] ∧
    window (px_flush shift_crypt doc_enc_dirty).2.px_stream.s.data 2048 4
      = [66, 66, 66, 66] ∧
    run_flush_read.1 = 4 ∧
    run_flush_read.2.1 = [66, 66, 66, 66] ∧
    phys_writes run_flush_read.2.2.px_stream.s.ops = 1 := by
  decide

/-- C19 (block addressing is a bijection): for `maxtablesize >= 1` and
`curpos >= headersize` (whatever the header size) the block size is positive,
`blocknr >= 1`, `0 <= blockoffset < blocksize` and
`headersize + (blocknr-1)*blocksize + blockoffset = curpos`, so the block start
used for loading and persisting is at or before `curpos` and less than one
block away; the pair is the only one with these bounds, and every pair with
these bounds is the pair of its position. -/
theorem C19_block_addressing_bijection (pxh : pxhead_t) (curpos : Int)
    (hm : 1 ≤ pxh.px_maxtablesize) (hpos : pxh.px_headersize ≤ curpos) :
    0 < blocksize pxh ∧
    1 ≤ blocknr pxh curpos ∧
    0 ≤ blockpos pxh curpos ∧ blockpos pxh curpos < blocksize pxh ∧
    pxh.px_headersize + (blocknr pxh curpos - 1) * blocksize pxh + blockpos pxh curpos
      = curpos ∧
    blockstart pxh (blocknr pxh curpos) ≤ curpos ∧
    curpos < blockstart pxh (blocknr pxh curpos) + blocksize pxh ∧
    (∀ n o : Int, 1 ≤ n → 0 ≤ o → o < blocksize pxh →
      pxh.px_headersize + (n - 1) * blocksize pxh + o = curpos →
      n = blocknr pxh curpos ∧ o = blockpos pxh curpos) ∧
    (∀ n o : Int, 1 ≤ n → 0 ≤ o → o < blocksize pxh →
      blocknr pxh (pxh.px_headersize + (n - 1) * blocksize pxh + o) = n ∧
      blockpos pxh (pxh.px_headersize + (n - 1) * blocksize pxh + o) = o) := by
  have hbs : 0 < blocksize pxh := by unfold blocksize; omega
  have huniq : ∀ (pos n o : Int), 1 ≤ n → 0 ≤ o → o < blocksize pxh →
      pxh.px_headersize + (n - 1) * blocksize pxh + o = pos →
      n = blocknr pxh pos ∧ o = blockpos pxh pos := by
    intro pos n o hn ho hob heq
    have hmul : 0 ≤ (n - 1) * blocksize pxh := mul_nonneg (by omega) (le_of_lt hbs)
    have ha : pos - pxh.px_headersize = o + (n - 1) * blocksize pxh := by omega
    have ha0 : 0 ≤ pos - pxh.px_headersize := by omega
    unfold blocknr blockpos
    rw [Int.tdiv_eq_ediv ha0 (le_of_lt hbs), Int.tmod_eq_emod ha0 (le_of_lt hbs), ha,
      Int.add_mul_ediv_right _ _ (ne_of_gt hbs), Int.add_mul_emod_self,
      Int.ediv_eq_zero_of_lt ho hob, Int.emod_eq_of_lt ho hob]
    constructor <;> omega
  obtain ⟨h1, h2, h3, h4⟩ := block_addressing pxh curpos hbs hpos
  have h4' : pxh.px_headersize + (blocknr pxh curpos - 1) * blocksize pxh
      + blockpos pxh curpos = curpos := by
    unfold blockstart at h4; exact h4
  refine ⟨hbs, h1, h2, h3, h4', by omega, by omega, ?_, ?_⟩
  · intro n o hn ho hob heq
    exact huniq curpos n o hn ho hob heq
  · intro n o hn ho hob
    obtain ⟨e1, e2⟩ := huniq _ n o hn ho hob rfl
    exact ⟨e1.symm, e2.symm⟩

/-- C19 at header size 2048, maxtablesize 1 and position 2052: block 1, offset 4. -/
theorem C19_block_addressing_bijection_witness :
    blocknr hd1 2052 = 1 ∧ blockpos hd1 2052 = 4 ∧
    hd1.px_headersize + (blocknr hd1 2052 - 1) * blocksize hd1 + blockpos hd1 2052 = 2052 :=
  have h := C19_block_addressing_bijection hd1 2052 (by decide) (by decide)
  ⟨by decide, by decide, h.2.2.2.2.1⟩

set_option maxRecDepth 100000 in
/-- C20 (the file transport reports a byte count), evaluated at `len = 4`:
`px_fread` transfers the 4 bytes and returns 1, `px_fwrite` writes the 4 bytes
and returns 1, a `px_read` before the header boundary returns that 1, and a
`px_read` of the same length on the cached path returns 4. -/
theorem C20_file_transport_returns_item_count :
    px_fread file8 4 [0, 0, 0, 0] =
      ({ data := [1, 2, 3, 4, 5, 6, 7, 8], pos := 4, ops := [FileOp.read 4] }, 1,
        [1, 2, 3, 4]) ∧
    px_fwrite file8 4 [9, 9, 9, 9] =
      ({ data := [9, 9, 9, 9, 5, 6, 7, 8], pos := 4, ops := [FileOp.write 4] }, 1) ∧
    (px_read no_crypt (open_doc hd1 (List.replicate 3072 5)) 4 [7, 7, 7, 7]).1 = 1 ∧
    (px_read no_crypt (open_doc hd1 (List.replicate 3072 5)) 4 [7, 7, 7, 7]).2.1
      = [5, 5, 5, 5] ∧
    (px_write no_crypt (open_doc hd1 (List.replicate 3072 5)) 4 [7, 7, 7, 7]).1 = 1 ∧
    (px_read no_crypt doc_at_2049 4 [7, 7, 7, 7]).1 = 4 := by
  decide

end Pxlib
